/-
Verification of the agent-lineage reconstruction and workflow-graph engine
(src/analysis/agent_tracker.py, src/analysis/entity_deduplicator.py,
src/proxy/workflow_graph.py) against its natural-language specification.

Modelling conventions:
* Python dicts keyed by hashes/ids are modelled as insertion-ordered
  association lists (`aset` updates in place, appends new keys at the end,
  exactly like a CPython dict preserves insertion order).
* `hashlib.sha256(...).hexdigest()[:n]` is modelled as an injective function
  of the hashed text: idealized collision-freeness.  `computeHash` is the
  identity on strings; `hashContent` prefixes a marker so that a non-empty
  input never produces the empty string (matching the truthiness behaviour
  of a real hex digest).  The final digest of a joined conversation
  signature is modelled by keeping the list of per-message signature parts.
* Machine integers are `Nat`/`Int`; confidences (Python floats 1.0, 0.95,
  0.85) are `ℚ`.
* `datetime.fromisoformat(s.replace('Z', '+00:00'))` is abstracted by a
  parameter `parseTs : String → Option Int` (seconds); `none` models a
  raised `ValueError`.  Code paths where Python would raise are modelled
  with `Except String`.
* The regex-based command extraction `extract_command_from_message` is
  abstracted by a parameter `extractCommand : String → Option String`
  (`none` models "no Command: marker found"); the claims under study do
  not depend on its value.
-/
import Mathlib

namespace ClaudeInspector

/-! ### Insertion-ordered association lists (model of Python dict) -/

/-- Lookup in an association list (first matching key wins). -/
def alookup {α β : Type} [DecidableEq α] : List (α × β) → α → Option β
  | [], _ => none
  | (k', v) :: rest, k => if k' = k then some v else alookup rest k

/-- `d[k] = v` on a Python dict: update in place if the key exists,
otherwise append at the end (CPython insertion order). -/
def aset {α β : Type} [DecidableEq α] : List (α × β) → α → β → List (α × β)
  | [], k, v => [(k, v)]
  | (k', v') :: rest, k, v =>
    if k' = k then (k, v) :: rest else (k', v') :: aset rest k v

theorem alookup_aset_self {α β : Type} [DecidableEq α]
    (m : List (α × β)) (k : α) (v : β) : alookup (aset m k v) k = some v := by
  induction m with
  | nil => simp [aset, alookup]
  | cons hd tl ih =>
    obtain ⟨k', v'⟩ := hd
    by_cases h : k' = k <;> simp [aset, alookup, h, ih]

theorem alookup_aset_ne {α β : Type} [DecidableEq α]
    (m : List (α × β)) (k k' : α) (v : β) (h : k ≠ k') :
    alookup (aset m k v) k' = alookup m k' := by
  induction m with
  | nil => simp [aset, alookup, h]
  | cons hd tl ih =>
    obtain ⟨k₀, v₀⟩ := hd
    by_cases h0 : k₀ = k
    · subst h0
      simp [aset, alookup, h]
    · simp [aset, alookup, h0, ih]

/-- Updating an existing key does not change the key set (in order). -/
theorem aset_keys_of_mem {α β : Type} [DecidableEq α]
    (m : List (α × β)) (k : α) (v : β) (h : (alookup m k).isSome) :
    (aset m k v).map Prod.fst = m.map Prod.fst := by
  induction m with
  | nil => simp [alookup] at h
  | cons hd tl ih =>
    obtain ⟨k₀, v₀⟩ := hd
    by_cases h0 : k₀ = k
    · subst h0; simp [aset]
    · simp [alookup, h0] at h
      simp [aset, h0, ih h]

/-- Monotonicity of `aset`: an entry at a different key, or an entry being
overwritten by itself, survives; in particular writing to a key that was
absent preserves every existing binding. -/
theorem alookup_aset_of_not_mem {α β : Type} [DecidableEq α]
    (m : List (α × β)) (k k' : α) (v : β) {v' : β} (habs : alookup m k = none)
    (hv : alookup m k' = some v') : alookup (aset m k v) k' = some v' := by
  rcases eq_or_ne k k' with rfl | h
  · rw [habs] at hv; cases hv
  · rw [alookup_aset_ne m k k' v h]; exact hv

/-! ### Injectivity of decimal `Nat.repr` (for freshness of `agent_<n>` ids) -/

/-- Numeric value of a decimal digit character. -/
def digitVal (c : Char) : Nat := c.toNat - 48

/-- Value of a decimal digit string (most significant first). -/
def decVal (l : List Char) : Nat := l.foldl (fun a c => 10 * a + digitVal c) 0

theorem decVal_append_singleton (l : List Char) (c : Char) :
    decVal (l ++ [c]) = 10 * decVal l + digitVal c := by
  simp [decVal, List.foldl_append]

theorem digitVal_digitChar {r : Nat} (h : r < 10) :
    digitVal (Nat.digitChar r) = r := by
  interval_cases r <;> rfl

theorem toDigitsCore_eq_append (b : Nat) (f : Nat) :
    ∀ (n : Nat) (ds : List Char),
      Nat.toDigitsCore b f n ds = Nat.toDigitsCore b f n [] ++ ds := by
  induction f with
  | zero => intro n ds; rfl
  | succ f ih =>
    intro n ds
    simp only [Nat.toDigitsCore]
    by_cases h : n / b = 0
    · simp [h]
    · simp only [h, if_false]
      rw [ih (n / b) (Nat.digitChar (n % b) :: ds),
        ih (n / b) [Nat.digitChar (n % b)], List.append_assoc]
      rfl

theorem decVal_toDigitsCore (f : Nat) :
    ∀ n : Nat, n < 10 ^ f → decVal (Nat.toDigitsCore 10 f n []) = n := by
  induction f with
  | zero =>
    intro n h
    simp only [pow_zero, Nat.lt_one_iff] at h
    subst h; rfl
  | succ f ih =>
    intro n h
    simp only [Nat.toDigitsCore]
    by_cases h0 : n / 10 = 0
    · have hn : n < 10 := (Nat.div_eq_zero_iff (by norm_num)).mp h0
      have hmod : n % 10 = n := Nat.mod_eq_of_lt hn
      simp only [h0, if_true]
      simp only [decVal, List.foldl, Nat.mul_zero, Nat.zero_add, hmod]
      exact digitVal_digitChar hn
    · have hdiv : n / 10 < 10 ^ f := by
        rw [Nat.div_lt_iff_lt_mul (by norm_num)]
        calc n < 10 ^ (f + 1) := h
          _ = 10 ^ f * 10 := by ring
      simp only [h0, if_false]
      rw [toDigitsCore_eq_append, decVal_append_singleton, ih (n / 10) hdiv,
        digitVal_digitChar (Nat.mod_lt n (by norm_num))]
      exact Nat.div_add_mod n 10

theorem decVal_toDigits (n : Nat) : decVal (Nat.toDigits 10 n) = n := by
  have hfuel : n < 10 ^ (n + 1) :=
    lt_of_lt_of_le (Nat.lt_pow_self (by norm_num) n)
      (Nat.pow_le_pow_right (by norm_num) (Nat.le_succ n))
  exact decVal_toDigitsCore (n + 1) n hfuel

theorem natRepr_injective {n m : Nat} (h : Nat.repr n = Nat.repr m) : n = m := by
  have hdata : Nat.toDigits 10 n = Nat.toDigits 10 m := by
    have := congrArg String.data h
    simpa [Nat.repr, List.asString] using this
  calc n = decVal (Nat.toDigits 10 n) := (decVal_toDigits n).symm
    _ = decVal (Nat.toDigits 10 m) := by rw [hdata]
    _ = m := decVal_toDigits m

theorem string_data_append (s t : String) : (s ++ t).data = s.data ++ t.data := by
  cases s; cases t; rfl

theorem string_ext {s t : String} (h : s.data = t.data) : s = t := by
  cases s; cases t; exact congrArg String.mk h

/-- The agent ids `f"agent_{counter}"` are pairwise distinct. -/
theorem agentKey_injective {i j : Nat}
    (h : ("agent_" ++ toString i : String) = "agent_" ++ toString j) : i = j := by
  apply natRepr_injective
  have hd := congrArg String.data h
  rw [string_data_append, string_data_append] at hd
  exact string_ext (List.append_cancel_left hd)

/-! ### Content blocks, messages, request bodies (data model of the logs) -/

/-- The `input` object of a `tool_use` block.  `reprStr` models Python's
`str(tool_input)` serialization used when fingerprinting. -/
structure ToolInput where
  prompt : String := ""
  description : String := ""
  subagentType : String := ""
  command : String := ""
  reprStr : String := ""
deriving Repr, DecidableEq

/-- A content block inside a message or a response.  `other` stands for a
non-dict list element or a dict with an unrecognized `type`, both of which
the Python code skips. -/
inductive Block where
  | text (t : String)
  | toolUse (id : Option String) (name : Option String) (input : ToolInput)
  | toolResult (toolUseId : Option String) (content : String) (isError : Bool)
  | other
deriving Repr, DecidableEq

/-- Message `content`: a plain string, a list of blocks, or anything else
(which `compute_conversation_fingerprint` normalizes to the empty list). -/
inductive Content where
  | str (s : String)
  | blocks (bs : List Block)
  | otherVal
deriving Repr, DecidableEq

structure Message where
  role : String := ""
  content : Content := .str ""
deriving Repr, DecidableEq

/-- `body`: the system prompt list (`some t` = a dict with a `text` field,
`none` = a non-dict element) and the ordered message list. -/
structure RequestBody where
  system : List (Option String) := []
  messages : List Message := []
deriving Repr, DecidableEq

/-! ### Hash modelling -/

/-- `compute_hash` (agent_tracker.py line 15): a truncated SHA-256 digest,
modelled as injective, i.e. as the identity on the hashed text. -/
def computeHash (s : String) : String := s

/-- Whitespace tokenizer for `text.split()`: maximal non-whitespace runs
(`cur` is the current token, reversed). -/
def splitWsAux : List Char → List Char → List (List Char)
  | [], cur => if cur = [] then [] else [cur.reverse]
  | c :: rest, cur =>
    if c.isWhitespace then
      if cur = [] then splitWsAux rest []
      else cur.reverse :: splitWsAux rest []
    else splitWsAux rest (c :: cur)

/-- `' '.join(text.split())`: collapse all whitespace runs to single
spaces and strip the ends. -/
def normWs (s : String) : String :=
  String.intercalate " " ((splitWsAux s.data []).map String.mk)

/-- `text.replace('\n', ' ')` (single-character pattern). -/
def replaceNewlines (s : String) : String :=
  String.mk (s.data.map (fun c => if c = Char.ofNat 10 then ' ' else c))

/-- `hash_content` (workflow_graph.py line 282): empty text hashes to the
empty string, otherwise SHA-256 of the whitespace-normalized first
`length` characters — modelled injectively, with a `#` marker so a
non-empty input never yields the empty (falsy) string, just as a real hex
digest is never empty. -/
def hashContent (text : String) (length : Nat := 200) : String :=
  if text = "" then "" else "#" ++ (normWs text).take length

/-! ### Conversation fingerprinting (agent_tracker.py lines 64-123) -/

/-- Per-block signature: `text:<hash>`, `tool_use:<name>:<input hash>`
(explicitly excluding the tool-use id), `tool_result:<content hash>`
(explicitly excluding the referenced id); unrecognized blocks contribute
nothing. -/
def blockSignature : Block → Option String
  | .text t => some ("text:" ++ computeHash t)
  | .toolUse _ name input =>
      some ("tool_use:" ++ name.getD "" ++ ":" ++ computeHash input.reprStr)
  | .toolResult _ content _ => some ("tool_result:" ++ computeHash content)
  | .other => none

/-- Content normalization: a plain string becomes a single text block, a
non-list non-string content becomes the empty block list. -/
def normContent : Content → List Block
  | .str s => [.text s]
  | .blocks bs => bs
  | .otherVal => []

/-- `f"{role}:[{','.join(block_signature)}]"` for one message. -/
def messageSignature (m : Message) : String :=
  m.role ++ ":[" ++
    String.intercalate "," ((normContent m.content).filterMap blockSignature) ++ "]"

/-- `compute_conversation_fingerprint`: the final 16-char digest of the
`'|||'`-joined parts is modelled injectively by keeping the list of parts
(the empty message list maps to `[]`, the unique image of the `"empty"`
sentinel, since every non-empty conversation has at least one part). -/
def conversationFingerprint (messages : List Message) : List String :=
  messages.map messageSignature

theorem conversationFingerprint_length (messages : List Message) :
    (conversationFingerprint messages).length = messages.length := by
  simp [conversationFingerprint]

/-- `extract_first_user_message` (agent_tracker.py lines 126-145). -/
def extractFirstUserMessage : List Message → String
  | [] => ""
  | m :: _ =>
    if m.role ≠ "user" then ""
    else
      match m.content with
      | .str s => s
      | .blocks bs =>
        match bs.filterMap (fun b => match b with | .text t => some t | _ => none) with
        | [] => ""
        | t :: _ => t
      | .otherVal => ""

/-- `normalize_command` (agent_tracker.py lines 148-182): keep only ASCII
alphanumeric characters, lowercase. -/
def normalizeCommand (command : String) : String :=
  String.mk (((command.toList.filter Char.isAlphanum).map Char.toLower))

/-! ### Tracker records (agent_tracker.py lines 20-61 and 188-204) -/

structure ToolUseRec where
  toolUseId : String
  toolName : Option String
  requestId : Nat
  timestamp : String
deriving Repr, DecidableEq

structure ToolResultRec where
  toolUseId : String
  requestId : Nat
  timestamp : String
  isError : Bool
deriving Repr, DecidableEq

/-- `AgentInstance` dataclass. -/
structure AgentInstance where
  agentId : String
  systemPromptHash : String
  conversationFingerprint : List String
  requests : List Nat := []
  firstRequestId : Option Nat := none
  lastRequestId : Option Nat := none
  messageCountHistory : List Nat := []
  spawnedByTaskId : Option String := none
  parentAgentId : Option String := none
  firstUserMessage : String := ""
  childAgentIds : List String := []
  toolUses : List ToolUseRec := []
  toolResults : List ToolResultRec := []
  timestamps : List String := []
deriving Repr, DecidableEq

/-- Value of `task_prompts[prompt_hash]`.  `register_task_prompt` stores
only the first two fields; `track_tool_use` stores all of them. -/
structure TaskPromptInfo where
  taskId : String
  parentAgentId : String
  requestId : Option Nat := none
  subagentType : Option String := none
  promptPrefix : Option String := none
deriving Repr, DecidableEq

/-- Value of `tool_use_index[tool_use_id]`. -/
structure ToolUseInfo where
  toolUseId : String
  toolName : Option String
  agentId : String
  requestId : Nat
  timestamp : String
  input : ToolInput
deriving Repr, DecidableEq

/-- Value of `tool_result_index[tool_use_id]`. -/
structure ToolResultInfo where
  toolUseId : String
  agentId : String
  requestId : Nat
  timestamp : String
  isError : Bool
deriving Repr, DecidableEq

/-- Value of `tool_command_index[command_hash]`. -/
structure CommandInfo where
  toolUseId : String
  parentAgentId : String
  requestId : Nat
  toolName : Option String
  command : String
  normalizedCommand : String
deriving Repr, DecidableEq

/-- One entry of `response_content_index[content_hash]`. -/
structure ContentInfo where
  agentId : String
  requestId : Nat
  timestamp : String
  contentHash : String
deriving Repr, DecidableEq

/-- A tracker-level workflow edge (`tool_result`, `content_reuse`,
`request_sequence`, `subagent_spawn`); the heterogeneous Python dicts are
merged into one record with optional fields. -/
structure WorkflowEdge where
  type : String
  sourceAgentId : String
  targetAgentId : String
  sourceRequestId : Option Nat := none
  targetRequestId : Option Nat := none
  toolUseId : Option String := none
  toolName : Option String := none
  isError : Option Bool := none
  contentHash : Option String := none
  timeGapMs : Option Int := none
  spawnMethod : Option String := none
  spawnedByTaskId : Option String := none
  spawnedByToolUseId : Option String := none
  commandHash : Option String := none
  confidence : ℚ
deriving Repr, DecidableEq

/-- `AgentInstanceTracker.__init__` state (agent_tracker.py lines 188-204). -/
structure Tracker where
  instances : List (String × AgentInstance) := []
  fingerprintToAgent : List (List String × String) := []
  requestToAgent : List (Nat × String) := []
  taskPrompts : List (String × TaskPromptInfo) := []
  agentCounter : Nat := 0
  toolUseIndex : List (String × ToolUseInfo) := []
  toolResultIndex : List (String × ToolResultInfo) := []
  workflowEdges : List WorkflowEdge := []
  responseContentIndex : List (String × List ContentInfo) := []
  toolCommandIndex : List (String × CommandInfo) := []
deriving Repr, DecidableEq

def initTracker : Tracker := {}

/-- `compute_system_prompt_hash` (agent_tracker.py lines 206-218). -/
def computeSystemPromptHash (system : List (Option String)) : String :=
  let texts := system.filterMap (fun p => match p with
    | some t => if t = "" then none else some t
    | none => none)
  if texts ≠ [] then computeHash (String.intercalate "|||" texts) else "no_system"

/-- `detect_task_spawn` (agent_tracker.py lines 354-376). -/
def detectTaskSpawn (tr : Tracker) (firstUserMessage : String) : Option TaskPromptInfo :=
  if firstUserMessage = "" then none
  else alookup tr.taskPrompts (computeHash firstUserMessage)

/-- Prefix/suffix scan of `tool_command_index` (agent_tracker.py lines
474-487), in dict insertion order. -/
def commandIndexScan (normalizedCommand : String) :
    List (String × CommandInfo) → Option CommandInfo
  | [] => none
  | (_, info) :: rest =>
    let pn := info.normalizedCommand
    if pn.length < 15 then commandIndexScan normalizedCommand rest
    else if pn.startsWith normalizedCommand ∨ normalizedCommand.startsWith pn ∨
        pn.endsWith normalizedCommand then some info
    else commandIndexScan normalizedCommand rest

/-- `detect_tool_spawn` (agent_tracker.py lines 441-489), with the
regex-based `extract_command_from_message` abstracted as `extractCommand`. -/
def detectToolSpawn (extractCommand : String → Option String) (tr : Tracker)
    (firstUserMessage : String) : Option CommandInfo :=
  if firstUserMessage = "" then none
  else
    match extractCommand firstUserMessage with
    | none => none
    | some command =>
      if command = "" then none
      else
        let nc := normalizeCommand command
        match alookup tr.toolCommandIndex (computeHash nc) with
        | some info => some info
        | none =>
          if nc.length ≥ 15 then commandIndexScan nc tr.toolCommandIndex
          else none

/-- Auxiliary loop of `find_parent_conversation`: try backtrack depths
`k, k+1, …` while `fuel` permits. -/
def findParentAux (tr : Tracker) (messages : List Message) (sph : String) :
    Nat → Nat → Option (String × AgentInstance)
  | _, 0 => none
  | k, fuel + 1 =>
    let pfp := conversationFingerprint (messages.take (messages.length - k))
    match alookup tr.fingerprintToAgent pfp with
    | some aid =>
      match alookup tr.instances aid with
      | some agent =>
        if agent.systemPromptHash = sph then some (aid, agent)
        else findParentAux tr messages sph (k + 1) fuel
      | none => findParentAux tr messages sph (k + 1) fuel
    | none => findParentAux tr messages sph (k + 1) fuel

/-- `find_parent_conversation` (agent_tracker.py lines 320-352): backtrack
by 1..min(len-1, 5) messages and look the truncated fingerprint up.
(The `instances` lookup cannot fail on states reachable from the initial
tracker; the `none` branch of `findParentAux` models the unreachable
`KeyError` path by skipping the depth.) -/
def findParentConversation (tr : Tracker) (messages : List Message)
    (sph : String) : Option (String × AgentInstance) :=
  if messages.length ≤ 1 then none
  else findParentAux tr messages sph 1 (min (messages.length - 1) 5)

/-- Appending a freshly created agent to its parent's `child_agent_ids`
(idempotently — no duplicate entries), agent_tracker.py lines 297-300 and
309-312; a missing parent leaves the instance table untouched. -/
def addChildToParent (instances : List (String × AgentInstance))
    (parentId : String) (childId : String) : List (String × AgentInstance) :=
  match alookup instances parentId with
  | some parent =>
    if childId ∈ parent.childAgentIds then instances
    else aset instances parentId
      { parent with childAgentIds := parent.childAgentIds ++ [childId] }
  | none => instances

/-- Branch "exact match" of `identify_or_create_agent` (agent_tracker.py
lines 245-254): the fingerprint was seen before — the same conversation
state, a replayed/duplicate call.  The `KeyError` path (a fingerprint
mapping to an unregistered agent id, impossible from the initial state)
is modelled as a no-op returning the mapped id. -/
def replayStep (tr : Tracker) (requestId : Nat) (messages : List Message)
    (timestamp : String) (agentId : String) : String × Tracker :=
  match alookup tr.instances agentId with
  | some agent =>
    let agent' := { agent with
      requests := agent.requests ++ [requestId]
      lastRequestId := some requestId
      messageCountHistory := agent.messageCountHistory ++ [messages.length]
      timestamps := agent.timestamps ++ [timestamp] }
    (agentId, { tr with
      instances := aset tr.instances agentId agent'
      requestToAgent := aset tr.requestToAgent requestId agentId })
  | none => (agentId, tr)

/-- Branch "continuation" of `identify_or_create_agent` (agent_tracker.py
lines 256-270): the same agent, its conversation just grew; the agent is
re-keyed under the new, longer fingerprint. -/
def continuationStep (tr : Tracker) (requestId : Nat) (fp : List String)
    (messages : List Message) (timestamp : String) (agentId : String)
    (parentAgent : AgentInstance) : String × Tracker :=
  let agent' := { parentAgent with
    requests := parentAgent.requests ++ [requestId]
    lastRequestId := some requestId
    conversationFingerprint := fp
    messageCountHistory := parentAgent.messageCountHistory ++ [messages.length]
    timestamps := parentAgent.timestamps ++ [timestamp] }
  (agentId, { tr with
    instances := aset tr.instances agentId agent'
    fingerprintToAgent := aset tr.fingerprintToAgent fp agentId
    requestToAgent := aset tr.requestToAgent requestId agentId })

/-- Branch "new agent instance" of `identify_or_create_agent`
(agent_tracker.py lines 272-318), including Task-spawn and tool-spawn
detection for the parent linkage. -/
def newAgentStep (extractCommand : String → Option String) (tr : Tracker)
    (requestId : Nat) (body : RequestBody) (timestamp : String) :
    String × Tracker :=
  let messages := body.messages
  let fp := conversationFingerprint messages
  let agentId := "agent_" ++ toString tr.agentCounter
  let firstUserMsg := extractFirstUserMessage messages
  let agent : AgentInstance := {
    agentId := agentId
    systemPromptHash := computeSystemPromptHash body.system
    conversationFingerprint := fp
    requests := [requestId]
    firstRequestId := some requestId
    lastRequestId := some requestId
    messageCountHistory := [messages.length]
    firstUserMessage := firstUserMsg
    timestamps := [timestamp] }
  let spawned : AgentInstance × List (String × AgentInstance) :=
    match detectTaskSpawn tr firstUserMsg with
    | some spawningInfo =>
      ({ agent with
          spawnedByTaskId := some spawningInfo.taskId
          parentAgentId := some spawningInfo.parentAgentId },
        addChildToParent tr.instances spawningInfo.parentAgentId agentId)
    | none =>
      match detectToolSpawn extractCommand tr firstUserMsg with
      | some toolSpawnInfo =>
        ({ agent with
            spawnedByTaskId := some toolSpawnInfo.toolUseId
            parentAgentId := some toolSpawnInfo.parentAgentId },
          addChildToParent tr.instances toolSpawnInfo.parentAgentId agentId)
      | none => (agent, tr.instances)
  (agentId, { tr with
    agentCounter := tr.agentCounter + 1
    instances := aset spawned.2 agentId spawned.1
    fingerprintToAgent := aset tr.fingerprintToAgent fp agentId
    requestToAgent := aset tr.requestToAgent requestId agentId })

/-- `identify_or_create_agent` (agent_tracker.py lines 220-318).  Returns
the id of the agent the request was attributed to together with the
updated tracker. -/
def identifyOrCreateAgent (extractCommand : String → Option String)
    (tr : Tracker) (requestId : Nat) (body : RequestBody) (timestamp : String) :
    String × Tracker :=
  let fp := conversationFingerprint body.messages
  match alookup tr.fingerprintToAgent fp with
  | some agentId => replayStep tr requestId body.messages timestamp agentId
  | none =>
    match findParentConversation tr body.messages
        (computeSystemPromptHash body.system) with
    | some (agentId, parentAgent) =>
      continuationStep tr requestId fp body.messages timestamp agentId parentAgent
    | none => newAgentStep extractCommand tr requestId body timestamp

/-- One log-stream entry as consumed by `identify_or_create_agent`. -/
structure Request where
  body : RequestBody := {}
  timestamp : String := ""
deriving Repr, DecidableEq

/-- Feed a list of requests to the tracker in strict log order, with
sequential request indices starting at `startId` (the behaviour of
`EntityExtractor.process_log_entry`'s `request_counter`).  Returns the
final tracker and the agent id each request was attributed to. -/
def runTrackerFrom (extractCommand : String → Option String) :
    Tracker → Nat → List Request → Tracker × List String
  | tr, _, [] => (tr, [])
  | tr, rid, req :: rest =>
    let step := identifyOrCreateAgent extractCommand tr rid req.body req.timestamp
    let rest' := runTrackerFrom extractCommand step.2 (rid + 1) rest
    (rest'.1, step.1 :: rest'.2)

/-- Process a whole log stream from the initial tracker, request indices
`0, 1, 2, …`. -/
def runTracker (extractCommand : String → Option String) (reqs : List Request) :
    Tracker × List String :=
  runTrackerFrom extractCommand initTracker 0 reqs

/-! ### Tool tracking (agent_tracker.py lines 548-685) -/

/-- `block.get('id')`: only `tool_use` blocks carry an `id` field. -/
def blockId : Block → Option String
  | .toolUse id _ _ => id
  | _ => none

/-- `block.get('name')`. -/
def blockName : Block → Option String
  | .toolUse _ name _ => name
  | _ => none

/-- `block.get('input', {})`. -/
def blockInput : Block → ToolInput
  | .toolUse _ _ input => input
  | _ => {}

/-- `block.get('tool_use_id')`: only `tool_result` blocks carry it. -/
def blockToolUseId : Block → Option String
  | .toolResult tuid _ _ => tuid
  | _ => none

/-- `block.get('is_error', False)`. -/
def blockIsError : Block → Bool
  | .toolResult _ _ e => e
  | _ => false

/-- `track_tool_use` (agent_tracker.py lines 548-629): the tool-use index
and the owning agent's `tool_uses` record only the FIRST occurrence of a
tool-use identifier; `Task` inputs populate the task-prompt index and
`Bash` inputs the normalized-command index, also first-occurrence only. -/
def trackToolUse (tr : Tracker) (requestId : Nat) (block : Block)
    (timestamp : String) : Tracker :=
  match blockId block with
  | none => tr
  | some toolUseId =>
    if toolUseId = "" then tr
    else
      match alookup tr.requestToAgent requestId with
      | none => tr
      | some agentId =>
        let toolName := blockName block
        let tr1 :=
          if (alookup tr.toolUseIndex toolUseId).isSome then tr
          else
            let tr' := { tr with toolUseIndex := (aset tr.toolUseIndex
              toolUseId { toolUseId := toolUseId, toolName := toolName,
                          agentId := agentId, requestId := requestId,
                          timestamp := timestamp,
                          input := blockInput block }) }
            match alookup tr'.instances agentId with
            | some agent =>
              { tr' with instances := (aset tr'.instances agentId
                { agent with toolUses := agent.toolUses ++
                  [{ toolUseId := toolUseId, toolName := toolName,
                     requestId := requestId, timestamp := timestamp }] }) }
            | none => tr'
        if toolName = some "Task" then
          let prompt := (blockInput block).prompt
          if prompt ≠ "" then
            if (alookup tr1.taskPrompts (computeHash prompt)).isSome then tr1
            else { tr1 with taskPrompts :=
              (aset tr1.taskPrompts (computeHash prompt)
                { taskId := toolUseId, parentAgentId := agentId,
                  requestId := some requestId,
                  subagentType := some (blockInput block).subagentType,
                  promptPrefix := some (prompt.take 200) }) }
          else tr1
        else if toolName = some "Bash" then
          let command := (blockInput block).command
          if command ≠ "" then
            let nc := normalizeCommand command
            if (alookup tr1.toolCommandIndex (computeHash nc)).isSome then tr1
            else { tr1 with toolCommandIndex :=
              (aset tr1.toolCommandIndex (computeHash nc)
                { toolUseId := toolUseId, parentAgentId := agentId,
                  requestId := requestId, toolName := toolName,
                  command := command, normalizedCommand := nc }) }
          else tr1
        else tr1

/-- `track_tool_result` (agent_tracker.py lines 631-685).  Note: unlike
`track_tool_use`, the result index is overwritten and the agent's
`tool_results` list and the `tool_result` workflow edge are appended on
EVERY call, with no first-occurrence guard. -/
def trackToolResult (tr : Tracker) (requestId : Nat) (block : Block)
    (timestamp : String) : Tracker :=
  match blockToolUseId block with
  | none => tr
  | some toolUseId =>
    if toolUseId = "" then tr
    else
      match alookup tr.requestToAgent requestId with
      | none => tr
      | some agentId =>
        let isError := blockIsError block
        let tr1 := { tr with toolResultIndex :=
          (aset tr.toolResultIndex toolUseId
            { toolUseId := toolUseId, agentId := agentId,
              requestId := requestId, timestamp := timestamp,
              isError := isError }) }
        let tr2 :=
          match alookup tr1.instances agentId with
          | some agent =>
            { tr1 with instances := (aset tr1.instances agentId
              { agent with toolResults := agent.toolResults ++
                [{ toolUseId := toolUseId, requestId := requestId,
                   timestamp := timestamp, isError := isError }] }) }
          | none => tr1
        match alookup tr2.toolUseIndex toolUseId with
        | some info =>
          { tr2 with workflowEdges := (tr2.workflowEdges ++
            [{ type := "tool_result", sourceAgentId := info.agentId,
               targetAgentId := agentId, toolUseId := some toolUseId,
               toolName := info.toolName,
               sourceRequestId := some info.requestId,
               targetRequestId := some requestId, isError := some isError,
               confidence := 1 }]) }
        | none => tr2

/-! ### Content-reuse tracking (agent_tracker.py lines 818-925) -/

/-- `track_response_content` (agent_tracker.py lines 818-855). -/
def trackResponseContent (tr : Tracker) (requestId : Nat)
    (contentBlocks : List Block) (timestamp : String) : Tracker :=
  match alookup tr.requestToAgent requestId with
  | none => tr
  | some agentId =>
    let textParts := contentBlocks.filterMap (fun b => match b with
      | .text t => if t ≠ "" then some t else none
      | _ => none)
    if textParts = [] then tr
    else
      let combined := String.intercalate "\n" textParts
      let normalized := (normWs combined).take 200
      let contentHash := computeHash normalized
      let old := (alookup tr.responseContentIndex contentHash).getD []
      { tr with responseContentIndex :=
        (aset tr.responseContentIndex contentHash
          (old ++ [{ agentId := agentId, requestId := requestId,
                     timestamp := timestamp, contentHash := contentHash }])) }

/-- `content_reuse` edges produced for one user text: one edge per indexed
response with a strictly earlier request index and a different agent,
confidence 0.85 (agent_tracker.py lines 885-900 and 911-925). -/
def contentReuseEdges (tr : Tracker) (requestId : Nat) (agentId : String)
    (text : String) : List WorkflowEdge :=
  let normalized := (normWs text).take 200
  let contentHash := computeHash normalized
  match alookup tr.responseContentIndex contentHash with
  | none => []
  | some sources =>
    sources.filterMap (fun src =>
      if src.requestId < requestId ∧ src.agentId ≠ agentId then
        some { type := "content_reuse", sourceAgentId := src.agentId,
               targetAgentId := agentId,
               sourceRequestId := some src.requestId,
               targetRequestId := some requestId,
               contentHash := some contentHash, confidence := mkRat 85 100 }
      else none)

/-- Per-message part of `track_request_content`: only user messages;
string content is hashed directly, array content hashes every non-empty
text block. -/
def messageReuseEdges (tr : Tracker) (requestId : Nat) (agentId : String)
    (m : Message) : List WorkflowEdge :=
  if m.role ≠ "user" then []
  else
    match m.content with
    | .str s => contentReuseEdges tr requestId agentId s
    | .blocks bs =>
      (bs.filterMap (fun b => match b with
        | .text t => if t ≠ "" then some t else none
        | _ => none)).flatMap (fun t => contentReuseEdges tr requestId agentId t)
    | .otherVal => []

/-- `track_request_content` (agent_tracker.py lines 857-925). -/
def trackRequestContent (tr : Tracker) (requestId : Nat)
    (messages : List Message) (_timestamp : String) : Tracker :=
  match alookup tr.requestToAgent requestId with
  | none => tr
  | some agentId =>
    { tr with workflowEdges := tr.workflowEdges ++
        messages.flatMap (fun m => messageReuseEdges tr requestId agentId m) }

/-! ### Request-sequence edges and the workflow DAG
(agent_tracker.py lines 687-784 and 927-967) -/

/-- Consecutive pairs `(l[i], l[i+1])` — `for i in range(len(l) - 1)`. -/
def consecPairs {α : Type} : List α → List (α × α)
  | a :: b :: rest => (a, b) :: consecPairs (b :: rest)
  | _ => []

/-- `request_times`: each request id paired with its timestamp when one
was recorded at the same position (`agent.timestamps[i] if i < len(...)
else None`). -/
def withTimes (reqs : List Nat) (tss : List String) :
    List (Nat × Option String) :=
  (List.range reqs.length).map (fun i => (reqs.getD i 0, tss[i]?))

/-- `build_request_sequence_edges` body for one agent: one
`request_sequence` edge per consecutive request pair, with the wall-clock
gap in milliseconds when both timestamps are non-empty and parseable. -/
def requestSequenceEdgesFor (parseTs : String → Option Int)
    (agentId : String) (ag : AgentInstance) : List WorkflowEdge :=
  if ag.requests.length < 2 then []
  else
    (consecPairs (withTimes ag.requests ag.timestamps)).map (fun pair =>
      let timeGapMs : Option Int :=
        match pair.1.2, pair.2.2 with
        | some st, some tt =>
          if st ≠ "" ∧ tt ≠ "" then
            match parseTs st, parseTs tt with
            | some a, some b => some ((b - a) * 1000)
            | _, _ => none
          else none
        | _, _ => none
      { type := "request_sequence", sourceAgentId := agentId,
        targetAgentId := agentId, sourceRequestId := some pair.1.1,
        targetRequestId := some pair.2.1, timeGapMs := timeGapMs,
        confidence := 1 })

/-- All request-sequence edges, in agent insertion order. -/
def rseqEdges (parseTs : String → Option Int)
    (instances : List (String × AgentInstance)) : List WorkflowEdge :=
  instances.flatMap (fun p => requestSequenceEdgesFor parseTs p.1 p.2)

/-- `build_request_sequence_edges` (agent_tracker.py lines 927-967):
appends to the shared `workflow_edges` list. -/
def buildRequestSequenceEdges (parseTs : String → Option Int)
    (tr : Tracker) : Tracker :=
  { tr with workflowEdges := tr.workflowEdges ++ rseqEdges parseTs tr.instances }

structure DagNode where
  id : String
  agentId : String
  agentType : String
  parentAgentId : Option String
  childAgentIds : List String
  spawnedByTaskId : Option String
  requestCount : Nat
  toolUseCount : Nat
  toolResultCount : Nat
  firstTimestamp : Option String
  lastTimestamp : Option String
  isRoot : Bool
  isLeaf : Bool
deriving Repr, DecidableEq

structure DagMetrics where
  totalAgents : Nat
  rootAgents : Nat
  leafAgents : Nat
  totalEdges : Nat
  spawnEdges : Nat
  toolResultEdges : Nat
  contentReuseEdges : Nat
  requestSequenceEdges : Nat
deriving Repr, DecidableEq

structure Dag where
  nodes : List DagNode
  edges : List WorkflowEdge
  metrics : DagMetrics
  rootAgentIds : List String
deriving Repr, DecidableEq

/-- One DAG node per agent instance (agent_tracker.py lines 697-714). -/
def dagNodeOf (agentId : String) (ag : AgentInstance) : DagNode :=
  { id := agentId, agentId := agentId, agentType := ag.systemPromptHash,
    parentAgentId := ag.parentAgentId, childAgentIds := ag.childAgentIds,
    spawnedByTaskId := ag.spawnedByTaskId,
    requestCount := ag.requests.length,
    toolUseCount := ag.toolUses.length,
    toolResultCount := ag.toolResults.length,
    firstTimestamp := ag.timestamps.head?,
    lastTimestamp := ag.timestamps.getLast?,
    isRoot := ag.parentAgentId.isNone,
    isLeaf := ag.childAgentIds.isEmpty }

/-- First command-index key whose entry carries the given tool-use id
(agent_tracker.py lines 736-739), in dict insertion order. -/
def commandHashFor (toolCommandIndex : List (String × CommandInfo))
    (tuid : String) : Option String :=
  match toolCommandIndex.find? (fun p => p.2.toolUseId == tuid) with
  | some p => some p.1
  | none => none

/-- A field added only when truthy (`if tool_name: edge['tool_name'] =
tool_name`). -/
def optTruthy : Option String → Option String
  | some s => if s = "" then none else some s
  | none => none

/-- The `subagent_spawn` edge for one agent with a parent
(agent_tracker.py lines 717-758). -/
def spawnEdgeFor (tr : Tracker) (agentId : String) (ag : AgentInstance) :
    List WorkflowEdge :=
  match ag.parentAgentId with
  | none => []
  | some parentId =>
    let sbtid := ag.spawnedByTaskId
    let infoOpt : Option ToolUseInfo :=
      match sbtid with
      | some t => if t ≠ "" then alookup tr.toolUseIndex t else none
      | none => none
    let toolName : Option String :=
      match infoOpt with | some i => i.toolName | none => none
    let sourceRequestId : Option Nat :=
      match infoOpt with | some i => some i.requestId | none => none
    let spawnMethod : String :=
      match infoOpt with
      | some i => if i.toolName ≠ some "Task" then "tool_call" else "task"
      | none => "task"
    let commandHash : Option String :=
      match infoOpt with
      | some i =>
        if i.toolName ≠ some "Task" then
          match sbtid with
          | some t => commandHashFor tr.toolCommandIndex t
          | none => none
        else none
      | none => none
    [{ type := "subagent_spawn", spawnMethod := some spawnMethod,
       sourceAgentId := parentId, sourceRequestId := sourceRequestId,
       targetAgentId := agentId,
       spawnedByTaskId :=
         if spawnMethod = "task" then ag.spawnedByTaskId else none,
       spawnedByToolUseId := sbtid, confidence := mkRat 95 100,
       toolName := optTruthy toolName, commandHash := optTruthy commandHash }]

/-- `build_workflow_dag` (agent_tracker.py lines 687-784).  It MUTATES
the tracker: `build_request_sequence_edges` appends to `workflow_edges`
on every call, so the updated tracker is returned alongside the DAG. -/
def buildWorkflowDag (parseTs : String → Option Int) (tr : Tracker) :
    Dag × Tracker :=
  let nodes := tr.instances.map (fun p => dagNodeOf p.1 p.2)
  let spawnEdges := tr.instances.flatMap (fun p => spawnEdgeFor tr p.1 p.2)
  let tr' := buildRequestSequenceEdges parseTs tr
  let edges := spawnEdges ++ tr'.workflowEdges
  let rootNodes := nodes.filter (fun n => n.isRoot)
  ({ nodes := nodes, edges := edges,
     metrics := {
       totalAgents := nodes.length,
       rootAgents := rootNodes.length,
       leafAgents := (nodes.filter (fun n => n.isLeaf)).length,
       totalEdges := edges.length,
       spawnEdges := (edges.filter (fun e => e.type == "subagent_spawn")).length,
       toolResultEdges := (edges.filter (fun e => e.type == "tool_result")).length,
       contentReuseEdges := (edges.filter (fun e => e.type == "content_reuse")).length,
       requestSequenceEdges :=
         (edges.filter (fun e => e.type == "request_sequence")).length },
     rootAgentIds := rootNodes.map (fun n => n.id) }, tr')

/-! ### Entity deduplication (entity_deduplicator.py) -/

/-- The canonical `UniqueEntity` record (entity payload fields other than
the identifier are irrelevant to deduplication and omitted). -/
structure UniqueEntity where
  entityId : String
  entityType : String
  firstSeenRequest : Nat
  firstSeenAgent : Option String
  occurrenceCount : Nat
  seenInRequests : List Nat
  seenInAgents : List String
deriving Repr, DecidableEq

structure DedupState where
  uniqueEntities : List (String × UniqueEntity) := []
  entityTypeCounts : List (String × Nat) := []
  entityTypeDuplicates : List (String × Nat) := []
deriving Repr, DecidableEq

/-- `EntityDeduplicator.deduplicate_entity` (entity_deduplicator.py lines
28-87), as a state transition (the enriched entity returned to the caller
is a pure view of the state and is not modelled separately).  Entities
without an id pass through without touching the state. -/
def deduplicateEntity (requestToAgent : List (Nat × String))
    (st : DedupState) (entityId : Option String) (entityType : String)
    (requestId : Nat) : DedupState :=
  match entityId with
  | none => st
  | some eid =>
    if eid = "" then st
    else
      let agentId := alookup requestToAgent requestId
      match alookup st.uniqueEntities eid with
      | none =>
        { st with
          uniqueEntities := (aset st.uniqueEntities eid
            { entityId := eid, entityType := entityType,
              firstSeenRequest := requestId, firstSeenAgent := agentId,
              occurrenceCount := 1, seenInRequests := [requestId],
              seenInAgents := match agentId with
                | some a => [a]
                | none => [] }),
          entityTypeCounts := (aset st.entityTypeCounts entityType
            ((alookup st.entityTypeCounts entityType).getD 0 + 1)) }
      | some ue =>
        { st with
          uniqueEntities := (aset st.uniqueEntities eid
            { ue with
              occurrenceCount := ue.occurrenceCount + 1,
              seenInRequests := ue.seenInRequests ++ [requestId],
              seenInAgents := match agentId with
                | some a =>
                  if a ∈ ue.seenInAgents then ue.seenInAgents
                  else ue.seenInAgents ++ [a]
                | none => ue.seenInAgents }),
          entityTypeDuplicates := (aset st.entityTypeDuplicates entityType
            ((alookup st.entityTypeDuplicates entityType).getD 0 + 1)) }

structure TypeStats where
  unique : Nat
  duplicates : Nat
  total : Nat
  duplicationRatio : ℚ
deriving Repr, DecidableEq

structure DedupStats where
  totalUniqueEntities : Nat
  totalOccurrences : Nat
  overallDuplicationRatio : ℚ
  duplicatesRemoved : Int
  byEntityType : List (String × TypeStats)
deriving Repr, DecidableEq

/-- `get_deduplication_stats` (entity_deduplicator.py lines 106-131);
float ratios are modelled as exact rationals. -/
def getDeduplicationStats (st : DedupState) : DedupStats :=
  let totalUnique := st.uniqueEntities.length
  let totalOccurrences :=
    (st.uniqueEntities.map (fun p => p.2.occurrenceCount)).sum
  { totalUniqueEntities := totalUnique,
    totalOccurrences := totalOccurrences,
    overallDuplicationRatio :=
      if 0 < totalUnique then (totalOccurrences : ℚ) / totalUnique else 0,
    duplicatesRemoved := (totalOccurrences : Int) - totalUnique,
    byEntityType := st.entityTypeCounts.map (fun p =>
      let uniqueCount := p.2
      let duplicateCount := (alookup st.entityTypeDuplicates p.1).getD 0
      let totalCount := uniqueCount + duplicateCount
      (p.1, { unique := uniqueCount, duplicates := duplicateCount,
              total := totalCount,
              duplicationRatio :=
                if 0 < uniqueCount then (totalCount : ℚ) / uniqueCount
                else 0 })) }

/-- A sequence of `deduplicate_entity` calls
`(entity id, entity type, request index)` in order. -/
def runDedup (requestToAgent : List (Nat × String)) :
    DedupState → List (Option String × String × Nat) → DedupState
  | st, [] => st
  | st, c :: rest =>
    runDedup requestToAgent
      (deduplicateEntity requestToAgent st c.1 c.2.1 c.2.2) rest

/-! ### Invariants of the tracker state -/

/-- The message count at which an agent was created (first recorded
history entry). -/
def firstCount (ag : AgentInstance) : Nat := ag.messageCountHistory.headI

theorem headI_append_singleton {l : List Nat} (x : Nat) (h : l ≠ []) :
    (l ++ [x]).headI = l.headI := by
  cases l with
  | nil => exact absurd rfl h
  | cons a t => rfl

/-- `addChildToParent` only touches `child_agent_ids`: the message-count
history of every instance is untouched. -/
theorem addChildToParent_history (m : List (String × AgentInstance))
    (p c k : String) :
    (alookup (addChildToParent m p c) k).map (fun a => a.messageCountHistory) =
    (alookup m k).map (fun a => a.messageCountHistory) := by
  unfold addChildToParent
  cases hp : alookup m p with
  | none => rfl
  | some parent =>
    by_cases hc : c ∈ parent.childAgentIds
    · simp [hc]
    · simp only [hc, if_false]
      by_cases hk : p = k
      · subst hk
        rw [alookup_aset_self, hp]
        rfl
      · rw [alookup_aset_ne _ _ _ _ hk]

/-- Structural invariant of the tracker, established by the initial state
and preserved by `identify_or_create_agent`:
* every fingerprint registered to an agent has at least as many messages
  as the conversation at which that agent was created;
* every recorded history entry of every agent is at least the agent's
  creation count;
* agent ids at or above the counter are unused. -/
structure Inv (tr : Tracker) : Prop where
  fpCount : ∀ fp aid, alookup tr.fingerprintToAgent fp = some aid →
    ∃ ag, alookup tr.instances aid = some ag ∧ firstCount ag ≤ fp.length
  histLB : ∀ aid ag, alookup tr.instances aid = some ag →
    ag.messageCountHistory ≠ [] ∧
      ∀ c ∈ ag.messageCountHistory, firstCount ag ≤ c
  fresh : ∀ i, tr.agentCounter ≤ i →
    alookup tr.instances ("agent_" ++ toString i) = none

theorem inv_init : Inv initTracker := by
  constructor
  · intro fp aid h; cases h
  · intro aid ag h; cases h
  · intro i _; rfl

/-- Any match found by the backtracking loop points at a registered agent
whose looked-up fingerprint is strictly shorter than the current message
list. -/
theorem findParentAux_spec {tr : Tracker} {messages : List Message}
    {sph : String} (hmsg : 0 < messages.length) :
    ∀ (fuel k : Nat) (aid : String) (ag : AgentInstance), 1 ≤ k →
      findParentAux tr messages sph k fuel = some (aid, ag) →
      alookup tr.instances aid = some ag ∧ ag.systemPromptHash = sph ∧
        ∃ pfp, alookup tr.fingerprintToAgent pfp = some aid ∧
          pfp.length < messages.length := by
  intro fuel
  induction fuel with
  | zero => intro k aid ag _ h; cases h
  | succ fuel ih =>
    intro k aid ag hk h
    unfold findParentAux at h
    cases hfp : alookup tr.fingerprintToAgent
        (conversationFingerprint (messages.take (messages.length - k))) with
    | none =>
      simp only [hfp] at h
      exact ih (k + 1) aid ag (by omega) h
    | some aid0 =>
      simp only [hfp] at h
      cases hag : alookup tr.instances aid0 with
      | none =>
        rw [hag] at h
        exact ih (k + 1) aid ag (by omega) h
      | some agent =>
        rw [hag] at h
        by_cases hs : agent.systemPromptHash = sph
        · simp only [hs, if_true, Option.some.injEq, Prod.mk.injEq] at h
          obtain ⟨rfl, rfl⟩ := h
          refine ⟨hag, hs, _, hfp, ?_⟩
          rw [conversationFingerprint_length, List.length_take]
          omega
        · simp only [hs, if_false] at h
          exact ih (k + 1) aid ag (by omega) h

theorem findParentConversation_spec {tr : Tracker} {messages : List Message}
    {sph : String} {aid : String} {ag : AgentInstance}
    (h : findParentConversation tr messages sph = some (aid, ag)) :
    alookup tr.instances aid = some ag ∧ ag.systemPromptHash = sph ∧
      ∃ pfp, alookup tr.fingerprintToAgent pfp = some aid ∧
        pfp.length < messages.length := by
  unfold findParentConversation at h
  by_cases hlen : messages.length ≤ 1
  · simp [hlen] at h
  · simp only [hlen, if_false] at h
    exact findParentAux_spec (by omega) _ 1 aid ag le_rfl h

theorem inv_replayStep {tr : Tracker} (hinv : Inv tr) (rid : Nat)
    (messages : List Message) (ts aid : String)
    (hfp : alookup tr.fingerprintToAgent (conversationFingerprint messages) =
      some aid) :
    Inv (replayStep tr rid messages ts aid).2 := by
  obtain ⟨ag, hag, hcnt⟩ := hinv.fpCount _ _ hfp
  rw [conversationFingerprint_length] at hcnt
  obtain ⟨hne, hlb⟩ := hinv.histLB _ _ hag
  unfold replayStep
  rw [hag]
  dsimp only
  constructor
  · intro fp' aid' h'
    dsimp only at h' ⊢
    obtain ⟨ag2, hag2, hcnt2⟩ := hinv.fpCount _ _ h'
    by_cases heq : aid' = aid
    · subst heq
      rw [hag] at hag2
      injection hag2 with hag2
      subst hag2
      refine ⟨_, alookup_aset_self _ _ _, ?_⟩
      unfold firstCount
      dsimp only
      rw [headI_append_singleton _ hne]
      exact hcnt2
    · rw [alookup_aset_ne _ _ _ _ (fun hh => heq hh.symm)]
      exact ⟨ag2, hag2, hcnt2⟩
  · intro aid' ag' h'
    dsimp only at h'
    by_cases heq : aid' = aid
    · subst heq
      rw [alookup_aset_self] at h'
      injection h' with h'
      subst h'
      constructor
      · simp
      · intro c hc
        unfold firstCount
        dsimp only at hc ⊢
        rw [headI_append_singleton _ hne]
        rcases List.mem_append.mp hc with hc | hc
        · exact hlb c hc
        · rw [List.mem_singleton] at hc
          subst hc
          exact hcnt
    · rw [alookup_aset_ne _ _ _ _ (fun hh => heq hh.symm)] at h'
      exact hinv.histLB _ _ h'
  · intro i hi
    dsimp only at hi ⊢
    have h0 := hinv.fresh i hi
    have hne2 : aid ≠ ("agent_" ++ toString i) := by
      intro hh
      rw [hh, h0] at hag
      cases hag
    rw [alookup_aset_ne _ _ _ _ hne2]
    exact h0

theorem inv_continuationStep {tr : Tracker} (hinv : Inv tr) (rid : Nat)
    (messages : List Message) (ts : String) {sph aid : String}
    {pa : AgentInstance}
    (hfind : findParentConversation tr messages sph = some (aid, pa)) :
    Inv (continuationStep tr rid (conversationFingerprint messages) messages
      ts aid pa).2 := by
  obtain ⟨hag, _, pfp, hpfp, hplen⟩ := findParentConversation_spec hfind
  obtain ⟨ag2, hag2, hcnt2⟩ := hinv.fpCount _ _ hpfp
  rw [hag] at hag2
  injection hag2 with hag2
  subst hag2
  have hcnt : firstCount pa ≤ messages.length :=
    le_of_lt (lt_of_le_of_lt hcnt2 hplen)
  obtain ⟨hne, hlb⟩ := hinv.histLB _ _ hag
  unfold continuationStep
  dsimp only
  constructor
  · intro fp' aid' h'
    dsimp only at h' ⊢
    by_cases hfp' : conversationFingerprint messages = fp'
    · subst hfp'
      rw [alookup_aset_self] at h'
      injection h' with h'
      subst h'
      refine ⟨_, alookup_aset_self _ _ _, ?_⟩
      unfold firstCount
      dsimp only
      rw [headI_append_singleton _ hne, conversationFingerprint_length]
      exact hcnt
    · rw [alookup_aset_ne _ _ _ _ hfp'] at h'
      obtain ⟨ag3, hag3, hcnt3⟩ := hinv.fpCount _ _ h'
      by_cases heq : aid' = aid
      · subst heq
        rw [hag] at hag3
        injection hag3 with hag3
        subst hag3
        refine ⟨_, alookup_aset_self _ _ _, ?_⟩
        unfold firstCount
        dsimp only
        rw [headI_append_singleton _ hne]
        exact hcnt3
      · rw [alookup_aset_ne _ _ _ _ (fun hh => heq hh.symm)]
        exact ⟨ag3, hag3, hcnt3⟩
  · intro aid' ag' h'
    dsimp only at h'
    by_cases heq : aid' = aid
    · subst heq
      rw [alookup_aset_self] at h'
      injection h' with h'
      subst h'
      constructor
      · simp
      · intro c hc
        unfold firstCount
        dsimp only at hc ⊢
        rw [headI_append_singleton _ hne]
        rcases List.mem_append.mp hc with hc | hc
        · exact hlb c hc
        · rw [List.mem_singleton] at hc
          subst hc
          exact hcnt
    · rw [alookup_aset_ne _ _ _ _ (fun hh => heq hh.symm)] at h'
      exact hinv.histLB _ _ h'
  · intro i hi
    dsimp only at hi ⊢
    have h0 := hinv.fresh i hi
    have hne2 : aid ≠ ("agent_" ++ toString i) := by
      intro hh
      rw [hh, h0] at hag
      cases hag
    rw [alookup_aset_ne _ _ _ _ hne2]
    exact h0

/-- Core of the new-agent branch: inserting a freshly keyed agent whose
history is the singleton of the current message count preserves the
invariant, for any side effect on `child_agent_ids` of other agents. -/
theorem inv_new_core {tr : Tracker} (hinv : Inv tr) (messages : List Message)
    (rid : Nat) (instances2 : List (String × AgentInstance))
    (hist2 : ∀ k, (alookup instances2 k).map (fun a => a.messageCountHistory) =
      (alookup tr.instances k).map (fun a => a.messageCountHistory))
    (ag : AgentInstance) (hhist : ag.messageCountHistory = [messages.length]) :
    Inv { tr with
      agentCounter := tr.agentCounter + 1
      instances := aset instances2 ("agent_" ++ toString tr.agentCounter) ag
      fingerprintToAgent := aset tr.fingerprintToAgent
        (conversationFingerprint messages) ("agent_" ++ toString tr.agentCounter)
      requestToAgent := aset tr.requestToAgent rid
        ("agent_" ++ toString tr.agentCounter) } := by
  constructor
  · intro fp' aid' h'
    dsimp only at h' ⊢
    by_cases hfp' : conversationFingerprint messages = fp'
    · subst hfp'
      rw [alookup_aset_self] at h'
      injection h' with h'
      subst h'
      refine ⟨ag, alookup_aset_self _ _ _, ?_⟩
      unfold firstCount
      rw [hhist, conversationFingerprint_length]
      simp
    · rw [alookup_aset_ne _ _ _ _ hfp'] at h'
      obtain ⟨ag2, hag2, hcnt2⟩ := hinv.fpCount _ _ h'
      have haid' : aid' ≠ ("agent_" ++ toString tr.agentCounter) := by
        intro hh
        rw [hh, hinv.fresh tr.agentCounter le_rfl] at hag2
        cases hag2
      rw [alookup_aset_ne _ _ _ _ (fun hh => haid' hh.symm)]
      have hmap := hist2 aid'
      rw [hag2] at hmap
      cases h3 : alookup instances2 aid' with
      | none => rw [h3] at hmap; cases hmap
      | some ag3 =>
        rw [h3] at hmap
        injection hmap with hmap
        dsimp only at hmap
        refine ⟨ag3, rfl, ?_⟩
        unfold firstCount
        rw [hmap]
        exact hcnt2
  · intro aid' ag' h'
    dsimp only at h'
    by_cases heq : aid' = ("agent_" ++ toString tr.agentCounter)
    · subst heq
      rw [alookup_aset_self] at h'
      injection h' with h'
      subst h'
      constructor
      · rw [hhist]; simp
      · intro c hc
        unfold firstCount
        rw [hhist] at hc ⊢
        rw [List.mem_singleton] at hc
        subst hc
        simp
    · rw [alookup_aset_ne _ _ _ _ (fun hh => heq hh.symm)] at h'
      have hmap := hist2 aid'
      rw [h'] at hmap
      cases h3 : alookup tr.instances aid' with
      | none => rw [h3] at hmap; cases hmap
      | some ag2 =>
        rw [h3] at hmap
        injection hmap with hmap
        dsimp only at hmap
        obtain ⟨hne2, hlb2⟩ := hinv.histLB _ _ h3
        constructor
        · rw [hmap]; exact hne2
        · intro c hc
          unfold firstCount
          rw [hmap] at hc ⊢
          exact hlb2 c hc
  · intro i hi
    dsimp only at hi ⊢
    have hik : tr.agentCounter ≤ i := by omega
    have h0 := hinv.fresh i hik
    have hkey : ("agent_" ++ toString tr.agentCounter : String) ≠
        ("agent_" ++ toString i) := by
      intro hh
      have := agentKey_injective hh
      omega
    rw [alookup_aset_ne _ _ _ _ hkey]
    have hmap := hist2 ("agent_" ++ toString i)
    rw [h0] at hmap
    cases h3 : alookup instances2 ("agent_" ++ toString i) with
    | none => rfl
    | some x => rw [h3] at hmap; cases hmap

theorem inv_newAgentStep {tr : Tracker} (hinv : Inv tr)
    (ec : String → Option String) (rid : Nat) (body : RequestBody)
    (ts : String) : Inv (newAgentStep ec tr rid body ts).2 := by
  unfold newAgentStep
  dsimp only
  cases hdt : detectTaskSpawn tr (extractFirstUserMessage body.messages) with
  | some info =>
    exact inv_new_core hinv body.messages rid _
      (fun k => addChildToParent_history _ _ _ k) _ rfl
  | none =>
    cases hds : detectToolSpawn ec tr (extractFirstUserMessage body.messages) with
    | some info =>
      exact inv_new_core hinv body.messages rid _
        (fun k => addChildToParent_history _ _ _ k) _ rfl
    | none =>
      exact inv_new_core hinv body.messages rid _ (fun k => rfl) _ rfl

theorem inv_step {tr : Tracker} (hinv : Inv tr) (ec : String → Option String)
    (rid : Nat) (body : RequestBody) (ts : String) :
    Inv (identifyOrCreateAgent ec tr rid body ts).2 := by
  unfold identifyOrCreateAgent
  dsimp only
  cases hfp : alookup tr.fingerprintToAgent
      (conversationFingerprint body.messages) with
  | some aid => exact inv_replayStep hinv rid body.messages ts aid hfp
  | none =>
    cases hfind : findParentConversation tr body.messages
        (computeSystemPromptHash body.system) with
    | some pair =>
      obtain ⟨aid, pa⟩ := pair
      exact inv_continuationStep hinv rid body.messages ts hfind
    | none => exact inv_newAgentStep hinv ec rid body ts

theorem inv_runFrom (ec : String → Option String) :
    ∀ (reqs : List Request) (tr : Tracker) (rid : Nat), Inv tr →
      Inv (runTrackerFrom ec tr rid reqs).1 := by
  intro reqs
  induction reqs with
  | nil => intro tr rid h; exact h
  | cons r rest ih =>
    intro tr rid h
    unfold runTrackerFrom
    dsimp only
    exact ih _ _ (inv_step h ec rid r.body r.timestamp)

/-- When the incoming fingerprint is already registered, the dispatcher
takes the replay branch. -/
theorem identify_replay (ec : String → Option String) (tr : Tracker)
    (rid : Nat) (body : RequestBody) (ts : String) {aid : String}
    (h : alookup tr.fingerprintToAgent (conversationFingerprint body.messages) =
      some aid) :
    identifyOrCreateAgent ec tr rid body ts =
      replayStep tr rid body.messages ts aid := by
  unfold identifyOrCreateAgent
  dsimp only
  rw [h]

/-- Unregistered fingerprint with a parent match: continuation branch. -/
theorem identify_continuation (ec : String → Option String) (tr : Tracker)
    (rid : Nat) (body : RequestBody) (ts : String) {aid : String}
    {pa : AgentInstance}
    (h1 : alookup tr.fingerprintToAgent (conversationFingerprint body.messages) =
      none)
    (h2 : findParentConversation tr body.messages
      (computeSystemPromptHash body.system) = some (aid, pa)) :
    identifyOrCreateAgent ec tr rid body ts =
      continuationStep tr rid (conversationFingerprint body.messages)
        body.messages ts aid pa := by
  unfold identifyOrCreateAgent
  dsimp only
  rw [h1, h2]

/-- Unregistered fingerprint, no parent match: new-agent branch. -/
theorem identify_new (ec : String → Option String) (tr : Tracker)
    (rid : Nat) (body : RequestBody) (ts : String)
    (h1 : alookup tr.fingerprintToAgent (conversationFingerprint body.messages) =
      none)
    (h2 : findParentConversation tr body.messages
      (computeSystemPromptHash body.system) = none) :
    identifyOrCreateAgent ec tr rid body ts =
      newAgentStep ec tr rid body ts := by
  unfold identifyOrCreateAgent
  dsimp only
  rw [h1, h2]

/-- The replay branch returns the mapped agent id and changes neither the
agent counter, nor the set of agent ids, nor the fingerprint map. -/
theorem replayStep_preserves (tr : Tracker) (rid : Nat)
    (messages : List Message) (ts aid : String) :
    (replayStep tr rid messages ts aid).1 = aid ∧
    (replayStep tr rid messages ts aid).2.agentCounter = tr.agentCounter ∧
    (replayStep tr rid messages ts aid).2.instances.map Prod.fst =
      tr.instances.map Prod.fst ∧
    (replayStep tr rid messages ts aid).2.fingerprintToAgent =
      tr.fingerprintToAgent := by
  unfold replayStep
  cases hag : alookup tr.instances aid with
  | some agent =>
    refine ⟨rfl, rfl, ?_, rfl⟩
    exact aset_keys_of_mem _ _ _ (by rw [hag]; rfl)
  | none => exact ⟨rfl, rfl, rfl, rfl⟩

/-- After processing a request, its full conversation fingerprint maps to
the agent the request was attributed to — in all three branches. -/
theorem fp_registered_step (ec : String → Option String) (tr : Tracker)
    (rid : Nat) (body : RequestBody) (ts : String) :
    alookup (identifyOrCreateAgent ec tr rid body ts).2.fingerprintToAgent
      (conversationFingerprint body.messages) =
    some (identifyOrCreateAgent ec tr rid body ts).1 := by
  cases hfp : alookup tr.fingerprintToAgent
      (conversationFingerprint body.messages) with
  | some aid =>
    rw [identify_replay ec tr rid body ts hfp]
    obtain ⟨h1, _, _, h4⟩ := replayStep_preserves tr rid body.messages ts aid
    rw [h1, h4]
    exact hfp
  | none =>
    cases hfind : findParentConversation tr body.messages
        (computeSystemPromptHash body.system) with
    | some pair =>
      obtain ⟨aid, pa⟩ := pair
      rw [identify_continuation ec tr rid body ts hfp hfind]
      unfold continuationStep
      dsimp only
      exact alookup_aset_self _ _ _
    | none =>
      rw [identify_new ec tr rid body ts hfp hfind]
      unfold newAgentStep
      dsimp only
      exact alookup_aset_self _ _ _

/-- The fingerprint-to-agent map only accumulates: a single step never
removes or redirects an existing binding. -/
theorem fp_monotone_step (ec : String → Option String) (tr : Tracker)
    (rid : Nat) (body : RequestBody) (ts : String) (fp : List String)
    (aid : String) (h : alookup tr.fingerprintToAgent fp = some aid) :
    alookup (identifyOrCreateAgent ec tr rid body ts).2.fingerprintToAgent fp =
      some aid := by
  cases hfp : alookup tr.fingerprintToAgent
      (conversationFingerprint body.messages) with
  | some aid0 =>
    rw [identify_replay ec tr rid body ts hfp]
    obtain ⟨_, _, _, h4⟩ := replayStep_preserves tr rid body.messages ts aid0
    rw [h4]
    exact h
  | none =>
    cases hfind : findParentConversation tr body.messages
        (computeSystemPromptHash body.system) with
    | some pair =>
      obtain ⟨aid0, pa⟩ := pair
      rw [identify_continuation ec tr rid body ts hfp hfind]
      unfold continuationStep
      dsimp only
      exact alookup_aset_of_not_mem _ _ _ _ hfp h
    | none =>
      rw [identify_new ec tr rid body ts hfp hfind]
      unfold newAgentStep
      dsimp only
      exact alookup_aset_of_not_mem _ _ _ _ hfp h

/-- Fingerprint-map monotonicity over a whole processed stream. -/
theorem fp_monotone_run (ec : String → Option String) :
    ∀ (reqs : List Request) (tr : Tracker) (rid : Nat) (fp : List String)
      (aid : String), alookup tr.fingerprintToAgent fp = some aid →
      alookup (runTrackerFrom ec tr rid reqs).1.fingerprintToAgent fp =
        some aid := by
  intro reqs
  induction reqs with
  | nil => intro tr rid fp aid h; exact h
  | cons r rest ih =>
    intro tr rid fp aid h
    unfold runTrackerFrom
    dsimp only
    exact ih _ _ fp aid (fp_monotone_step ec tr rid r.body r.timestamp fp aid h)

theorem runTrackerFrom_length (ec : String → Option String) :
    ∀ (reqs : List Request) (tr : Tracker) (rid : Nat),
      (runTrackerFrom ec tr rid reqs).2.length = reqs.length := by
  intro reqs
  induction reqs with
  | nil => intro tr rid; rfl
  | cons r rest ih =>
    intro tr rid
    simp [runTrackerFrom, ih]

theorem runTrackerFrom_append (ec : String → Option String) :
    ∀ (l1 : List Request) (tr : Tracker) (rid : Nat) (l2 : List Request),
      runTrackerFrom ec tr rid (l1 ++ l2) =
        ((runTrackerFrom ec (runTrackerFrom ec tr rid l1).1
            (rid + l1.length) l2).1,
         (runTrackerFrom ec tr rid l1).2 ++
           (runTrackerFrom ec (runTrackerFrom ec tr rid l1).1
             (rid + l1.length) l2).2) := by
  intro l1
  induction l1 with
  | nil => intro tr rid l2; simp [runTrackerFrom]
  | cons r rest ih =>
    intro tr rid l2
    simp only [List.cons_append, runTrackerFrom]
    rw [show rest.append l2 = rest ++ l2 from rfl, ih]
    simp only [List.length_cons, List.cons_append]
    have harith : rid + 1 + rest.length = rid + (rest.length + 1) := by omega
    rw [harith]

/-- For every processed request, the final fingerprint map still carries
that request\'s full fingerprint, bound to the agent it was attributed to. -/
theorem assigned_fp_registered (ec : String → Option String) :
    ∀ (reqs : List Request) (tr : Tracker) (rid n : Nat) (q : Request),
      reqs[n]? = some q →
      ∃ aid, (runTrackerFrom ec tr rid reqs).2[n]? = some aid ∧
        alookup (runTrackerFrom ec tr rid reqs).1.fingerprintToAgent
          (conversationFingerprint q.body.messages) = some aid := by
  intro reqs
  induction reqs with
  | nil => intro tr rid n q h; cases h
  | cons r rest ih =>
    intro tr rid n q h
    cases n with
    | zero =>
      rw [List.getElem?_cons_zero] at h
      injection h with h
      subst h
      refine ⟨(identifyOrCreateAgent ec tr rid r.body r.timestamp).1, ?_, ?_⟩
      · simp [runTrackerFrom]
      · unfold runTrackerFrom
        dsimp only
        exact fp_monotone_run ec rest _ _ _ _
          (fp_registered_step ec tr rid r.body r.timestamp)
    | succ n =>
      rw [List.getElem?_cons_succ] at h
      obtain ⟨aid, h1, h2⟩ :=
        ih (identifyOrCreateAgent ec tr rid r.body r.timestamp).2 (rid + 1) n q h
      refine ⟨aid, ?_, h2⟩
      unfold runTrackerFrom
      dsimp only
      rw [List.getElem?_cons_succ]
      exact h1

/-! ### Concrete demonstration streams -/

/-- Trivial command extraction: no `Command:` marker present anywhere. -/
def ecNone : String → Option String := fun _ => none

def userMsg (s : String) : Message := { role := "user", content := .str s }

def assistantMsg (s : String) : Message :=
  { role := "assistant", content := .str s }

def reqOfMessages (ms : List Message) : Request :=
  { body := { messages := ms } }

/-- A stream in which request 0 opens a conversation, request 1 grows it
by two messages (continuation, backtrack depth 2), and request 2 replays
the original one-message conversation state of the same agent. -/
def replayDemoRequests : List Request :=
  [reqOfMessages [userMsg "hi"],
   reqOfMessages [userMsg "hi", assistantMsg "yo", userMsg "hi2"],
   reqOfMessages [userMsg "hi"]]

/-- The single agent produced by `replayDemoRequests` (its history is
`[1, 3, 1]`: the replay of the old state appended the smaller count). -/
def replayDemoAgent : AgentInstance :=
  { agentId := "agent_0",
    systemPromptHash := "no_system",
    conversationFingerprint :=
      ["user:[text:hi]", "assistant:[text:yo]", "user:[text:hi2]"],
    requests := [0, 1, 2],
    firstRequestId := some 0,
    lastRequestId := some 2,
    messageCountHistory := [1, 3, 1],
    spawnedByTaskId := none,
    parentAgentId := none,
    firstUserMessage := "hi",
    childAgentIds := [],
    toolUses := [],
    toolResults := [],
    timestamps := ["", "", ""] }

/-! ### Claim C1 — replay idempotence -/

/-- C1: processing a log stream in strict order, if a later request
carries exactly the message history (same conversation fingerprint) of an
earlier request `N`, then `identify_or_create_agent` attributes it to the
same agent that owns `N` and creates no new `AgentInstance`: the assigned
id list is extended by the id assigned at `N`, and both the agent counter
and the set of agent ids are unchanged. -/
theorem C1_replay_idempotence (ec : String → Option String)
    (reqs : List Request) (r : Request) (n : Nat) (q : Request)
    (hq : reqs[n]? = some q)
    (hfp : conversationFingerprint r.body.messages =
      conversationFingerprint q.body.messages) :
    ∃ aid, (runTracker ec reqs).2[n]? = some aid ∧
      (runTracker ec (reqs ++ [r])).2 = (runTracker ec reqs).2 ++ [aid] ∧
      (runTracker ec (reqs ++ [r])).1.agentCounter =
        (runTracker ec reqs).1.agentCounter ∧
      (runTracker ec (reqs ++ [r])).1.instances.map Prod.fst =
        (runTracker ec reqs).1.instances.map Prod.fst := by
  obtain ⟨aid, hget, hreg⟩ := assigned_fp_registered ec reqs initTracker 0 n q hq
  refine ⟨aid, hget, ?_, ?_, ?_⟩
  all_goals
    have happ := runTrackerFrom_append ec reqs initTracker 0 [r]
    have hfp' : alookup
        (runTrackerFrom ec initTracker 0 reqs).1.fingerprintToAgent
        (conversationFingerprint r.body.messages) = some aid := by
      rw [hfp]; exact hreg
    have hstep := identify_replay ec (runTrackerFrom ec initTracker 0 reqs).1
      (0 + reqs.length) r.body r.timestamp hfp'
    obtain ⟨e1, e2, e3, _⟩ := replayStep_preserves
      (runTrackerFrom ec initTracker 0 reqs).1 (0 + reqs.length)
      r.body.messages r.timestamp aid
    have hsing : runTrackerFrom ec (runTrackerFrom ec initTracker 0 reqs).1
        (0 + reqs.length) [r] =
        ((identifyOrCreateAgent ec (runTrackerFrom ec initTracker 0 reqs).1
            (0 + reqs.length) r.body r.timestamp).2,
         [(identifyOrCreateAgent ec (runTrackerFrom ec initTracker 0 reqs).1
            (0 + reqs.length) r.body r.timestamp).1]) := rfl
  · show (runTrackerFrom ec initTracker 0 (reqs ++ [r])).2 =
      (runTrackerFrom ec initTracker 0 reqs).2 ++ [aid]
    rw [happ]
    dsimp only
    rw [hsing]
    dsimp only
    rw [hstep, e1]
  · show (runTrackerFrom ec initTracker 0 (reqs ++ [r])).1.agentCounter =
      (runTrackerFrom ec initTracker 0 reqs).1.agentCounter
    rw [happ]
    dsimp only
    rw [hsing]
    dsimp only
    rw [hstep]
    exact e2
  · show (runTrackerFrom ec initTracker 0 (reqs ++ [r])).1.instances.map
        Prod.fst =
      (runTrackerFrom ec initTracker 0 reqs).1.instances.map Prod.fst
    rw [happ]
    dsimp only
    rw [hsing]
    dsimp only
    rw [hstep]
    exact e3

/-- C1 witness: a concrete one-request stream replayed verbatim is
attributed back to `agent_0` and creates no second agent. -/
theorem C1_replay_idempotence_witness :
    ∃ aid, (runTracker ecNone [reqOfMessages [userMsg "hi"]]).2[0]? =
        some aid ∧
      (runTracker ecNone ([reqOfMessages [userMsg "hi"]] ++
          [reqOfMessages [userMsg "hi"]])).2 =
        (runTracker ecNone [reqOfMessages [userMsg "hi"]]).2 ++ [aid] ∧
      (runTracker ecNone ([reqOfMessages [userMsg "hi"]] ++
          [reqOfMessages [userMsg "hi"]])).1.agentCounter =
        (runTracker ecNone [reqOfMessages [userMsg "hi"]]).1.agentCounter ∧
      (runTracker ecNone ([reqOfMessages [userMsg "hi"]] ++
          [reqOfMessages [userMsg "hi"]])).1.instances.map Prod.fst =
        (runTracker ecNone [reqOfMessages [userMsg "hi"]]).1.instances.map
          Prod.fst :=
  C1_replay_idempotence ecNone [reqOfMessages [userMsg "hi"]]
    (reqOfMessages [userMsg "hi"]) 0 (reqOfMessages [userMsg "hi"])
    (by decide) (by decide)

/-! ### Claim C2 — continuation monotonicity (corrected) -/

/-- C2 counterexample: after the stream `replayDemoRequests` (create with
1 message, continue with 3, replay the old 1-message state), the claim
"every agent's `message_count_history` is non-decreasing at consecutive
positions" is false: `agent_0` records `[1, 3, 1]`. -/
theorem C2_counterexample :
    ¬ ∀ ag ∈ (runTracker ecNone replayDemoRequests).1.instances.map Prod.snd,
        ∀ i, i + 1 < ag.messageCountHistory.length →
          ag.messageCountHistory.getD i 0 ≤
            ag.messageCountHistory.getD (i + 1) 0 := by
  intro h
  have hmap : (runTracker ecNone replayDemoRequests).1.instances.map
      Prod.snd = [replayDemoAgent] := by decide
  have h2 := h replayDemoAgent
    (by rw [hmap]; exact List.mem_singleton_self _) 1 (by decide)
  revert h2
  decide

/-- C2 (amended): `message_count_history` need not be non-decreasing (a
replay of an earlier, shorter conversation state appends its smaller
count); what holds for every agent after processing any log stream in
order is that the history is non-empty and every entry is at least the
first entry (the count at agent creation). -/
theorem C2_history_bounded_below (ec : String → Option String)
    (reqs : List Request) (aid : String) (ag : AgentInstance)
    (h : alookup (runTracker ec reqs).1.instances aid = some ag) :
    ag.messageCountHistory ≠ [] ∧
      ∀ c ∈ ag.messageCountHistory, ag.messageCountHistory.headI ≤ c := by
  have hinv := inv_runFrom ec reqs initTracker 0 inv_init
  exact hinv.histLB aid ag h

/-- C2 witness: the amended bound applied to the concrete demo agent with
history `[1, 3, 1]`. -/
theorem C2_history_bounded_below_witness :
    replayDemoAgent.messageCountHistory ≠ [] ∧
      ∀ c ∈ replayDemoAgent.messageCountHistory,
        replayDemoAgent.messageCountHistory.headI ≤ c :=
  C2_history_bounded_below ecNone replayDemoRequests "agent_0"
    replayDemoAgent (by decide)

/-! ### Claim C10 — the fingerprint map only accumulates -/

/-- C10: every binding of the fingerprint-to-agent map survives any
further processing (re-keying on continuation adds the new fingerprint
without removing the old ones), and a later request replaying any
fingerprint registered for an agent is attributed back to that agent
without creating a new one (same assigned id, unchanged agent counter,
unchanged set of agent ids). -/
theorem C10_fingerprint_map_accumulates (ec : String → Option String)
    (tr : Tracker) (reqs : List Request) (rid : Nat) (fp : List String)
    (aid : String) (r : Request) (rid' : Nat)
    (h : alookup tr.fingerprintToAgent fp = some aid)
    (hr : conversationFingerprint r.body.messages = fp) :
    alookup (runTrackerFrom ec tr rid reqs).1.fingerprintToAgent fp =
      some aid ∧
    (identifyOrCreateAgent ec (runTrackerFrom ec tr rid reqs).1 rid' r.body
      r.timestamp).1 = aid ∧
    (identifyOrCreateAgent ec (runTrackerFrom ec tr rid reqs).1 rid' r.body
      r.timestamp).2.agentCounter =
      (runTrackerFrom ec tr rid reqs).1.agentCounter ∧
    (identifyOrCreateAgent ec (runTrackerFrom ec tr rid reqs).1 rid' r.body
      r.timestamp).2.instances.map Prod.fst =
      (runTrackerFrom ec tr rid reqs).1.instances.map Prod.fst := by
  have h1 := fp_monotone_run ec reqs tr rid fp aid h
  have hfp' : alookup (runTrackerFrom ec tr rid reqs).1.fingerprintToAgent
      (conversationFingerprint r.body.messages) = some aid := by
    rw [hr]; exact h1
  have hstep := identify_replay ec (runTrackerFrom ec tr rid reqs).1 rid'
    r.body r.timestamp hfp'
  obtain ⟨e1, e2, e3, _⟩ := replayStep_preserves
    (runTrackerFrom ec tr rid reqs).1 rid' r.body.messages r.timestamp aid
  refine ⟨h1, ?_, ?_, ?_⟩
  · rw [hstep]; exact e1
  · rw [hstep]; exact e2
  · rw [hstep]; exact e3

/-- C10 witness: the creation fingerprint of `agent_0` still maps to it
after an unrelated request was processed, and replaying it is attributed
back to `agent_0` without a new agent. -/
theorem C10_fingerprint_map_accumulates_witness :
    alookup (runTrackerFrom ecNone
        (runTracker ecNone [reqOfMessages [userMsg "hi"]]).1 1
        [reqOfMessages [userMsg "other"]]).1.fingerprintToAgent
      ["user:[text:hi]"] = some "agent_0" ∧
    (identifyOrCreateAgent ecNone (runTrackerFrom ecNone
        (runTracker ecNone [reqOfMessages [userMsg "hi"]]).1 1
        [reqOfMessages [userMsg "other"]]).1 2
      (reqOfMessages [userMsg "hi"]).body
      (reqOfMessages [userMsg "hi"]).timestamp).1 = "agent_0" ∧
    (identifyOrCreateAgent ecNone (runTrackerFrom ecNone
        (runTracker ecNone [reqOfMessages [userMsg "hi"]]).1 1
        [reqOfMessages [userMsg "other"]]).1 2
      (reqOfMessages [userMsg "hi"]).body
      (reqOfMessages [userMsg "hi"]).timestamp).2.agentCounter =
      (runTrackerFrom ecNone
        (runTracker ecNone [reqOfMessages [userMsg "hi"]]).1 1
        [reqOfMessages [userMsg "other"]]).1.agentCounter ∧
    (identifyOrCreateAgent ecNone (runTrackerFrom ecNone
        (runTracker ecNone [reqOfMessages [userMsg "hi"]]).1 1
        [reqOfMessages [userMsg "other"]]).1 2
      (reqOfMessages [userMsg "hi"]).body
      (reqOfMessages [userMsg "hi"]).timestamp).2.instances.map Prod.fst =
      (runTrackerFrom ecNone
        (runTracker ecNone [reqOfMessages [userMsg "hi"]]).1 1
        [reqOfMessages [userMsg "other"]]).1.instances.map Prod.fst :=
  C10_fingerprint_map_accumulates ecNone
    (runTracker ecNone [reqOfMessages [userMsg "hi"]]).1
    [reqOfMessages [userMsg "other"]] 1 ["user:[text:hi]"] "agent_0"
    (reqOfMessages [userMsg "hi"]) 2 (by decide) (by decide)

/-! ### Claim C3 — first-occurrence filtering of tool tracking
(code bug: `track_tool_result` has no first-occurrence guard) -/

def demoToolUseBlock : Block :=
  .toolUse (some "toolu_1") (some "Read") { reprStr := "path" }

def demoToolResultBlock : Block :=
  .toolResult (some "toolu_1") "file contents" false

/-- Tracker after one request (owned by `agent_0`) and one tracked
tool use. -/
def demoTrackerAfterUse : Tracker :=
  trackToolUse (runTracker ecNone [reqOfMessages [userMsg "hi"]]).1 0
    demoToolUseBlock ""

def demoTrackerOneResult : Tracker :=
  trackToolResult demoTrackerAfterUse 0 demoToolResultBlock ""

def demoTrackerTwoResults : Tracker :=
  trackToolResult demoTrackerOneResult 0 demoToolResultBlock ""

/-- C3: evaluation at the failing input.  `track_tool_use` called again
with an already-seen identifier is a no-op (the claim holds for it), but
a second `track_tool_result` call with the same identifier — exactly what
a replayed conversation history produces — appends a second entry to the
owning agent's `tool_results` and emits a second `tool_result` workflow
edge, contradicting the claim that a later call with a seen identifier
leaves them unchanged. -/
theorem C3_tool_result_replayed_identifier_not_ignored :
    trackToolUse demoTrackerAfterUse 0 demoToolUseBlock "" =
      demoTrackerAfterUse ∧
    (alookup demoTrackerOneResult.instances "agent_0").map
      (fun a => a.toolResults.length) = some 1 ∧
    demoTrackerOneResult.workflowEdges.length = 1 ∧
    (alookup demoTrackerTwoResults.instances "agent_0").map
      (fun a => a.toolResults.length) = some 2 ∧
    demoTrackerTwoResults.workflowEdges.length = 2 := by
  decide

/-! ### Claim C6 — idempotence of the assembled graph (corrected) -/

/-- A timestamp parser that parses nothing (the demo stream has empty
timestamps). -/
def ptsNone : String → Option Int := fun _ => none

/-- Tracker with one agent owning two requests (a replayed request). -/
def dagDemoTracker : Tracker :=
  (runTracker ecNone
    [reqOfMessages [userMsg "hi"], reqOfMessages [userMsg "hi"]]).1

/-- C6 counterexample: calling `build_workflow_dag` twice on the same
tracker state without processing any new input does NOT return the same
multiset of edges: the first call returns the agent's single
`request_sequence` edge, the second call returns it twice, because
`build_request_sequence_edges` appends to the shared `workflow_edges`
list on every call. -/
theorem C6_counterexample :
    (buildWorkflowDag ptsNone dagDemoTracker).1.edges.length = 1 ∧
    (buildWorkflowDag ptsNone
      (buildWorkflowDag ptsNone dagDemoTracker).2).1.edges.length = 2 ∧
    (buildWorkflowDag ptsNone
      (buildWorkflowDag ptsNone dagDemoTracker).2).1.nodes =
      (buildWorkflowDag ptsNone dagDemoTracker).1.nodes := by
  decide

/-- C6 (amended): `build_workflow_dag` is not idempotent.  A second call
on the tracker returned by the first call yields the same nodes but its
edge list is the first call's edge list with a second copy of the
request-sequence edges appended (so each call grows the shared
`workflow_edges` by one copy of them). -/
theorem C6_dag_second_call_appends_sequence_edges
    (parseTs : String → Option Int) (tr : Tracker) :
    (buildWorkflowDag parseTs (buildWorkflowDag parseTs tr).2).1.nodes =
      (buildWorkflowDag parseTs tr).1.nodes ∧
    (buildWorkflowDag parseTs (buildWorkflowDag parseTs tr).2).1.edges =
      (buildWorkflowDag parseTs tr).1.edges ++
        rseqEdges parseTs tr.instances := by
  constructor
  · rfl
  · simp only [buildWorkflowDag, buildRequestSequenceEdges, List.append_assoc]
    rfl

/-! ### Claim C7 — dedup conservation (corrected) -/

theorem mem_aset {α β : Type} [DecidableEq α] :
    ∀ (m : List (α × β)) (k : α) (v : β) (p : α × β),
      p ∈ aset m k v → p = (k, v) ∨ p ∈ m := by
  intro m k v
  induction m with
  | nil =>
    intro p h
    simp [aset] at h
    left
    exact h
  | cons hd tl ih =>
    intro p h
    obtain ⟨k0, v0⟩ := hd
    unfold aset at h
    by_cases h0 : k0 = k
    · simp only [h0, if_true] at h
      rcases List.mem_cons.mp h with h | h
      · left; exact h
      · right; exact List.mem_cons_of_mem _ h
    · simp only [h0, if_false] at h
      rcases List.mem_cons.mp h with h | h
      · right
        subst h
        exact List.mem_cons_self _ _
      · rcases ih p h with h' | h'
        · left; exact h'
        · right; exact List.mem_cons_of_mem _ h'

theorem alookup_mem {α β : Type} [DecidableEq α] :
    ∀ (m : List (α × β)) (k : α) (v : β),
      alookup m k = some v → (k, v) ∈ m := by
  intro m
  induction m with
  | nil => intro k v h; cases h
  | cons hd tl ih =>
    intro k v h
    obtain ⟨k0, v0⟩ := hd
    unfold alookup at h
    by_cases h0 : k0 = k
    · simp only [h0, if_true] at h
      injection h with h
      subst h
      subst h0
      exact List.mem_cons_self _ _
    · simp only [h0, if_false] at h
      exact List.mem_cons_of_mem _ (ih k v h)

/-- The per-entity bookkeeping invariant: the occurrence counter equals
the length of the (multiset) request list. -/
def DedupOk (st : DedupState) : Prop :=
  ∀ p ∈ st.uniqueEntities,
    p.2.occurrenceCount = p.2.seenInRequests.length

theorem dedupOk_step (rta : List (Nat × String)) (st : DedupState)
    (eid : Option String) (etype : String) (rid : Nat) (h : DedupOk st) :
    DedupOk (deduplicateEntity rta st eid etype rid) := by
  unfold deduplicateEntity
  cases eid with
  | none => exact h
  | some e =>
    by_cases he : e = ""
    · simp only [he, if_true]
      exact h
    · simp only [he, if_false]
      cases hlook : alookup st.uniqueEntities e with
      | none =>
        intro p hp
        dsimp only at hp
        rcases mem_aset _ _ _ p hp with hp | hp
        · subst hp; rfl
        · exact h p hp
      | some ue =>
        intro p hp
        dsimp only at hp
        rcases mem_aset _ _ _ p hp with hp | hp
        · subst hp
          have hthis := h (e, ue) (alookup_mem _ _ _ hlook)
          dsimp only at hthis ⊢
          simp only [List.length_append, List.length_cons, List.length_nil]
          omega
        · exact h p hp

theorem dedupOk_run (rta : List (Nat × String)) :
    ∀ (calls : List (Option String × String × Nat)) (st : DedupState),
      DedupOk st → DedupOk (runDedup rta st calls) := by
  intro calls
  induction calls with
  | nil => intro st h; exact h
  | cons c rest ih =>
    intro st h
    exact ih _ (dedupOk_step rta st c.1 c.2.1 c.2.2 h)

/-- Two `deduplicate_entity` calls with the same entity id at the same
request index — exactly what the extraction pipeline performs for every
`Task` tool use, which is deduplicated once as `tool_use` and once as
`task` under the same identifier. -/
def dedupDemoState : DedupState :=
  runDedup [] {} [(some "toolu_X", "tool_use", 0), (some "toolu_X", "task", 0)]

/-- C7 counterexample: after two occurrences at the same request index
the stored record has `occurrence_count = 2` but `seen_in_requests =
[0, 0]`, whose SET cardinality is 1 — so
`occurrence_count == |seen_in_requests|` read as set cardinality fails. -/
theorem C7_counterexample :
    dedupDemoState.uniqueEntities.map
      (fun p => (p.1, p.2.occurrenceCount, p.2.seenInRequests)) =
      [("toolu_X", 2, [0, 0])] ∧
    ¬ ∀ p ∈ dedupDemoState.uniqueEntities,
        p.2.occurrenceCount = p.2.seenInRequests.dedup.length := by
  decide

/-- C7 (amended): for every sequence of `deduplicate_entity` calls, every
stored `UniqueEntity` satisfies `occurrence_count ==
len(seen_in_requests)` — the LENGTH of the request list, counting a
request index once per occurrence (the set-cardinality reading fails when
an entity is recorded twice for the same request) — and the aggregate
statistics satisfy `duplicates_removed == total_occurrences -
total_unique_entities`. -/
theorem C7_dedup_conservation (requestToAgent : List (Nat × String))
    (calls : List (Option String × String × Nat)) :
    (∀ p ∈ (runDedup requestToAgent {} calls).uniqueEntities,
      p.2.occurrenceCount = p.2.seenInRequests.length) ∧
    (getDeduplicationStats
        (runDedup requestToAgent {} calls)).duplicatesRemoved +
      (getDeduplicationStats
        (runDedup requestToAgent {} calls)).totalUniqueEntities =
      ((getDeduplicationStats
        (runDedup requestToAgent {} calls)).totalOccurrences : Int) := by
  constructor
  · exact dedupOk_run requestToAgent calls {} (by intro p hp; cases hp)
  · unfold getDeduplicationStats
    dsimp only
    exact Int.sub_add_cancel _ _

/-! ### Claim C8 — fingerprint independence from volatile identifiers -/

/-- "Identical except for the tool-use identifier fields of `tool_use`
blocks and the reference identifier fields of `tool_result` blocks". -/
def blockIdAgnosticEq : Block → Block → Bool
  | .text t, .text t' => decide (t = t')
  | .toolUse _ n i, .toolUse _ n' i' => decide (n = n') && decide (i = i')
  | .toolResult _ c e, .toolResult _ c' e' => decide (c = c') && decide (e = e')
  | .other, .other => true
  | _, _ => false

def blocksIdAgnosticEq : List Block → List Block → Bool
  | [], [] => true
  | b :: bs, b' :: bs' => blockIdAgnosticEq b b' && blocksIdAgnosticEq bs bs'
  | _, _ => false

def contentIdAgnosticEq : Content → Content → Bool
  | .str s, .str s' => decide (s = s')
  | .blocks bs, .blocks bs' => blocksIdAgnosticEq bs bs'
  | .otherVal, .otherVal => true
  | _, _ => false

def messageIdAgnosticEq (m m' : Message) : Bool :=
  decide (m.role = m'.role) && contentIdAgnosticEq m.content m'.content

def messagesIdAgnosticEq : List Message → List Message → Bool
  | [], [] => true
  | m :: ms, m' :: ms' =>
    messageIdAgnosticEq m m' && messagesIdAgnosticEq ms ms'
  | _, _ => false

theorem blockSignature_id_agnostic {b b' : Block}
    (h : blockIdAgnosticEq b b' = true) :
    blockSignature b = blockSignature b' := by
  cases b <;> cases b' <;> simp_all [blockIdAgnosticEq, blockSignature]

theorem blocksSignature_id_agnostic : ∀ {bs bs' : List Block},
    blocksIdAgnosticEq bs bs' = true →
    bs.filterMap blockSignature = bs'.filterMap blockSignature := by
  intro bs
  induction bs with
  | nil =>
    intro bs' h
    cases bs' with
    | nil => rfl
    | cons b' rest' => simp [blocksIdAgnosticEq] at h
  | cons b rest ih =>
    intro bs' h
    cases bs' with
    | nil => simp [blocksIdAgnosticEq] at h
    | cons b' rest' =>
      unfold blocksIdAgnosticEq at h
      rw [Bool.and_eq_true] at h
      obtain ⟨h1, h2⟩ := h
      rw [List.filterMap_cons, List.filterMap_cons,
        blockSignature_id_agnostic h1, ih h2]

theorem contentSignature_id_agnostic : ∀ {c c' : Content},
    contentIdAgnosticEq c c' = true →
    (normContent c).filterMap blockSignature =
      (normContent c').filterMap blockSignature := by
  intro c c' h
  cases c with
  | str s =>
    cases c' with
    | str s' =>
      unfold contentIdAgnosticEq at h
      rw [decide_eq_true_eq] at h
      rw [h]
    | blocks bs' => simp [contentIdAgnosticEq] at h
    | otherVal => simp [contentIdAgnosticEq] at h
  | blocks bs =>
    cases c' with
    | str s' => simp [contentIdAgnosticEq] at h
    | blocks bs' => exact blocksSignature_id_agnostic h
    | otherVal => simp [contentIdAgnosticEq] at h
  | otherVal =>
    cases c' with
    | str s' => simp [contentIdAgnosticEq] at h
    | blocks bs' => simp [contentIdAgnosticEq] at h
    | otherVal => rfl

theorem messageSignature_id_agnostic {m m' : Message}
    (h : messageIdAgnosticEq m m' = true) :
    messageSignature m = messageSignature m' := by
  unfold messageIdAgnosticEq at h
  rw [Bool.and_eq_true] at h
  obtain ⟨hrole, hcontent⟩ := h
  rw [decide_eq_true_eq] at hrole
  unfold messageSignature
  rw [hrole, contentSignature_id_agnostic hcontent]

/-- C8: two message lists identical except for the tool-use identifier
fields of `tool_use` blocks and the reference identifier fields of
`tool_result` blocks produce the same conversation fingerprint. -/
theorem C8_fingerprint_id_independent : ∀ (ms ms' : List Message),
    messagesIdAgnosticEq ms ms' = true →
    conversationFingerprint ms = conversationFingerprint ms' := by
  intro ms
  induction ms with
  | nil =>
    intro ms' h
    cases ms' with
    | nil => rfl
    | cons m' rest' => simp [messagesIdAgnosticEq] at h
  | cons m rest ih =>
    intro ms' h
    cases ms' with
    | nil => simp [messagesIdAgnosticEq] at h
    | cons m' rest' =>
      unfold messagesIdAgnosticEq at h
      rw [Bool.and_eq_true] at h
      obtain ⟨h1, h2⟩ := h
      unfold conversationFingerprint
      simp only [List.map_cons]
      rw [messageSignature_id_agnostic h1]
      have hrest := ih rest' h2
      unfold conversationFingerprint at hrest
      rw [hrest]

/-- Two concrete conversations differing only in tool-use ids. -/
def idDemoMessagesA : List Message :=
  [{ role := "assistant", content := .blocks
      [.toolUse (some "toolu_A") (some "Bash")
        { command := "ls", reprStr := "cmd:ls" }] },
   { role := "user", content := .blocks
      [.toolResult (some "toolu_A") "file1 file2" false] }]

def idDemoMessagesB : List Message :=
  [{ role := "assistant", content := .blocks
      [.toolUse (some "toolu_B") (some "Bash")
        { command := "ls", reprStr := "cmd:ls" }] },
   { role := "user", content := .blocks
      [.toolResult (some "toolu_B") "file1 file2" false] }]

/-- C8 witness: the two concrete conversations above collide. -/
theorem C8_fingerprint_id_independent_witness :
    conversationFingerprint idDemoMessagesA =
      conversationFingerprint idDemoMessagesB :=
  C8_fingerprint_id_independent idDemoMessagesA idDemoMessagesB (by decide)

/-! ### Graph-level builder (src/proxy/workflow_graph.py) -/

/-- One enriched log entry as consumed by the graph builder.
`timestamp` is `log.get('timestamp')` (`none` = absent); `messages` and
`responseContent` are `none` when the corresponding field is present but
not a list (the detectors skip such entries), and default to the empty
list as `dict.get(..., [])` does. -/
structure LogEntry where
  timestamp : Option String := none
  messages : Option (List Message) := some []
  responseContent : Option (List Block) := some []
  agentTypeName : Option String := none
  agentTypeLabel : Option String := none
  agentTypeColor : Option String := none
  model : Option String := none
  durationMs : Option Int := none
  inputTokens : Option Nat := none
  outputTokens : Option Nat := none
  stopReason : Option String := none
  hasErrors : Bool := false
  toolCount : Option Nat := none
  subagentCount : Option Nat := none
deriving Repr, DecidableEq

/-- A graph edge `{type, source, target, metadata, confidence}` with the
union of the metadata fields the three detectors emit. -/
structure GEdge where
  type : String
  source : Nat
  target : Nat
  confidence : ℚ
  sessionId : Option Nat := none
  toolUseId : Option String := none
  toolName : Option String := none
  isError : Option Bool := none
  subagentType : Option String := none
  taskToolId : Option String := none
  spawnTime : Option String := none
  timeDiffSeconds : Option Int := none
  matchMethod : Option String := none
  contentPreview : Option String := none
deriving Repr, DecidableEq

/-- Part of `detect_sessions` (workflow_graph.py lines 31-52): the main
scan; returns the accumulated sessions and the final
`current_session_start`. -/
def detectSessionsLoop (parseTs : String → Option Int) (gapMinutes : Int) :
    List LogEntry → Nat → Nat → Option Int → List (Nat × Nat) →
      List (Nat × Nat) × Nat
  | [], _, start, _, acc => (acc, start)
  | log :: rest, i, start, prevTime, acc =>
    let ts := log.timestamp.getD ""
    if ts = "" then
      detectSessionsLoop parseTs gapMinutes rest (i + 1) start prevTime acc
    else
      match parseTs ts with
      | none =>
        detectSessionsLoop parseTs gapMinutes rest (i + 1) start prevTime acc
      | some currTime =>
        match prevTime with
        | some prev =>
          if currTime - prev > gapMinutes * 60 then
            detectSessionsLoop parseTs gapMinutes rest (i + 1) i
              (some currTime) (acc ++ [(start, i - 1)])
          else
            detectSessionsLoop parseTs gapMinutes rest (i + 1) start
              (some currTime) acc
        | none =>
          detectSessionsLoop parseTs gapMinutes rest (i + 1) start
            (some currTime) acc

/-- `detect_sessions` (workflow_graph.py lines 17-58). -/
def detectSessions (parseTs : String → Option Int) (logs : List LogEntry)
    (gapMinutes : Int := 10) : List (Nat × Nat) :=
  if logs = [] then []
  else
    let scanned := detectSessionsLoop parseTs gapMinutes logs 0 0 none []
    if scanned.2 < logs.length then
      scanned.1 ++ [(scanned.2, logs.length - 1)]
    else scanned.1

/-- `f"session_{session_id}_{tool_use_id}"` prefixing (workflow_graph.py
lines 91-93 and 139-143). -/
def sessionPrefix (sessionId : Option Nat) (toolUseId : String) : String :=
  match sessionId with
  | some sid => "session_" ++ toString sid ++ "_" ++ toolUseId
  | none => toolUseId

/-- One block step of `build_tool_index`'s inner loop. -/
def toolIndexStep (sessionId : Option Nat) (idx : Nat)
    (acc : List (String × Nat) × List (String × Option String))
    (b : Block) : List (String × Nat) × List (String × Option String) :=
  match b with
  | .toolUse (some tuid) name _ =>
    if tuid ≠ "" then
      let key := sessionPrefix sessionId tuid
      (aset acc.1 key idx, aset acc.2 key name)
    else acc
  | _ => acc

def buildToolIndexAux (sessionId : Option Nat) :
    List LogEntry → Nat →
      (List (String × Nat) × List (String × Option String)) →
      List (String × Nat) × List (String × Option String)
  | [], _, acc => acc
  | log :: rest, idx, acc =>
    let acc' :=
      match log.responseContent with
      | none => acc
      | some content => content.foldl (toolIndexStep sessionId idx) acc
    buildToolIndexAux sessionId rest (idx + 1) acc'

/-- `build_tool_index` (workflow_graph.py lines 61-97): tool_use_id →
log index and tool_use_id → tool name, keys session-prefixed. -/
def buildToolIndex (logs : List LogEntry) (sessionId : Option Nat) :
    List (String × Nat) × List (String × Option String) :=
  buildToolIndexAux sessionId logs 0 ([], [])

/-- `match_tool_results` inner body for one target log
(workflow_graph.py lines 117-159). -/
def toolResultEdgesForLog (toolIndex : List (String × Nat))
    (toolNames : List (String × Option String)) (sessionId : Option Nat)
    (targetIdx : Nat) (log : LogEntry) : List GEdge :=
  match log.messages with
  | none => []
  | some messages =>
    messages.flatMap (fun message =>
      match message.content with
      | .blocks content =>
        content.filterMap (fun b =>
          match b with
          | .toolResult (some tuid) _ isError =>
            if tuid ≠ "" then
              let prefixed := sessionPrefix sessionId tuid
              match alookup toolIndex prefixed with
              | some sourceIdx =>
                some { type := "tool_result", source := sourceIdx,
                       target := targetIdx, toolUseId := some tuid,
                       toolName := (alookup toolNames prefixed).getD none,
                       isError := some isError, confidence := 1 }
              | none => none
            else none
          | _ => none)
      | _ => [])

def matchToolResultsAux (toolIndex : List (String × Nat))
    (toolNames : List (String × Option String)) (sessionId : Option Nat) :
    List LogEntry → Nat → List GEdge
  | [], _ => []
  | log :: rest, idx =>
    toolResultEdgesForLog toolIndex toolNames sessionId idx log ++
      matchToolResultsAux toolIndex toolNames sessionId rest (idx + 1)

/-- `match_tool_results` (workflow_graph.py lines 100-161). -/
def matchToolResults (logs : List LogEntry)
    (toolIndex : List (String × Nat))
    (toolNames : List (String × Option String)) (sessionId : Option Nat) :
    List GEdge :=
  matchToolResultsAux toolIndex toolNames sessionId logs 0

/-- `extract_text_content` (workflow_graph.py lines 301-322). -/
def extractTextContent (contentBlocks : List Block) : String :=
  String.intercalate "\n" (contentBlocks.filterMap (fun b =>
    match b with
    | .text t => if t ≠ "" then some t else none
    | _ => none))

/-- The extracted response text of a log entry (workflow_graph.py lines
342-343). -/
def responseText (log : LogEntry) : String :=
  match log.responseContent with
  | none => ""
  | some bs => extractTextContent bs

/-- Index of response content hashes: hash → list of
`(log index, 100-char preview)` (workflow_graph.py lines 340-354). -/
def responseHashesAux :
    List LogEntry → Nat → List (String × List (Nat × String)) →
      List (String × List (Nat × String))
  | [], _, acc => acc
  | log :: rest, idx, acc =>
    let text := responseText log
    let acc' :=
      if text ≠ "" then
        let contentHash := hashContent text 200
        if contentHash ≠ "" then
          let preview := replaceNewlines (text.take 100)
          aset acc contentHash
            ((alookup acc contentHash).getD [] ++ [(idx, preview)])
        else acc
      else acc
    responseHashesAux rest (idx + 1) acc'

/-- The `content_reuse` edges produced by one hashed request text
(workflow_graph.py lines 369-405): one edge per earlier matching
response, confidence 0.95. -/
def contentReuseEdgesForText
    (responseHashes : List (String × List (Nat × String)))
    (targetIdx : Nat) (text : String) : List GEdge :=
  let contentHash := hashContent text 200
  match alookup responseHashes contentHash with
  | some sources =>
    sources.filterMap (fun src =>
      if src.1 < targetIdx then
        some { type := "content_reuse", source := src.1, target := targetIdx,
               contentPreview := some src.2,
               matchMethod := some "hash_200char", confidence := mkRat 95 100 }
      else none)
  | none => []

def contentReuseEdgesForLog
    (responseHashes : List (String × List (Nat × String)))
    (targetIdx : Nat) (log : LogEntry) : List GEdge :=
  match log.messages with
  | none => []
  | some messages =>
    messages.flatMap (fun message =>
      match message.content with
      | .str s => contentReuseEdgesForText responseHashes targetIdx s
      | .blocks bs =>
        bs.flatMap (fun b =>
          match b with
          | .text t =>
            if t ≠ "" then contentReuseEdgesForText responseHashes targetIdx t
            else []
          | _ => [])
      | .otherVal => [])

def detectContentReuseAux
    (responseHashes : List (String × List (Nat × String))) :
    List LogEntry → Nat → List GEdge
  | [], _ => []
  | log :: rest, idx =>
    contentReuseEdgesForLog responseHashes idx log ++
      detectContentReuseAux responseHashes rest (idx + 1)

/-- `detect_content_reuse` (workflow_graph.py lines 325-407). -/
def detectContentReuse (logs : List LogEntry) : List GEdge :=
  detectContentReuseAux (responseHashesAux logs 0 []) logs 0

/-- One entry of the `task_spawns` list (workflow_graph.py lines
183-206). -/
structure TaskSpawn where
  parentIdx : Nat
  subagentType : String
  taskToolId : Option String
  prompt : String
  promptHash : Option String
  timestamp : Option String
deriving Repr, DecidableEq

def collectTaskSpawnsAux : List LogEntry → Nat → List TaskSpawn
  | [], _ => []
  | log :: rest, idx =>
    let here : List TaskSpawn :=
      match log.responseContent with
      | none => []
      | some content =>
        content.filterMap (fun b =>
          match b with
          | .toolUse tid name input =>
            if name = some "Task" then
              if input.subagentType ≠ "" then
                some { parentIdx := idx, subagentType := input.subagentType,
                       taskToolId := tid, prompt := input.prompt,
                       promptHash :=
                         if input.prompt ≠ "" then
                           some (hashContent input.prompt 300)
                         else none,
                       timestamp := log.timestamp }
              else none
            else none
          | _ => none)
    here ++ collectTaskSpawnsAux rest (idx + 1)

/-- `datetime.fromisoformat(x.replace('Z', '+00:00'))` applied to a maybe
missing timestamp: `AttributeError` when `x` is `None`, `ValueError` when
unparseable — both UNCAUGHT in `detect_subagent_spawns`. -/
def parseLogTime (parseTs : String → Option Int) :
    Option String → Except String Int
  | none => .error "AttributeError"
  | some s =>
    match parseTs s with
    | some t => .ok t
    | none => .error "ValueError"

/-- The hash of a scanned log's first user message (workflow_graph.py
lines 231-249). -/
def firstMsgHash (log : LogEntry) : Option String :=
  match log.messages with
  | some (firstMsg :: _) =>
    match firstMsg.content with
    | .str s => some (hashContent s 300)
    | .blocks bs =>
      match bs.filterMap (fun b => match b with
        | .text t => some (hashContent t 300)
        | _ => none) with
      | h :: _ => some h
      | [] => none
    | .otherVal => none
  | _ => none

/-- The forward scan of `detect_subagent_spawns` (workflow_graph.py lines
224-262): stops past the 1-hour window, takes the first prompt-hash match
with a non-negative time difference; parsing each scanned log's timestamp
can raise. -/
def scanForPromptMatch (parseTs : String → Option Int) (spawnTime : Int)
    (promptHash : String) :
    List LogEntry → Nat → Except String (Option (Nat × Int))
  | [], _ => .ok none
  | log :: rest, idx =>
    match parseLogTime parseTs log.timestamp with
    | .error err => .error err
    | .ok t =>
      let timeDiff := t - spawnTime
      if timeDiff > 3600 then
        .ok none
      else
        match firstMsgHash log with
        | some h =>
          if h ≠ "" ∧ h = promptHash then
            if 0 ≤ timeDiff then .ok (some (idx, timeDiff))
            else scanForPromptMatch parseTs spawnTime promptHash rest (idx + 1)
          else scanForPromptMatch parseTs spawnTime promptHash rest (idx + 1)
        | none => scanForPromptMatch parseTs spawnTime promptHash rest (idx + 1)

/-- Per-spawn part of `detect_subagent_spawns` (workflow_graph.py lines
209-277): the spawn timestamp is parsed BEFORE the prompt-hash guard, so
a missing/unparseable timestamp raises. -/
def spawnEdgeForTaskSpawn (parseTs : String → Option Int)
    (logs : List LogEntry) (spawn : TaskSpawn) :
    Except String (List GEdge) :=
  match parseLogTime parseTs spawn.timestamp with
  | .error err => .error err
  | .ok spawnTime =>
    match spawn.promptHash with
    | none => .ok []
    | some promptHash =>
      match scanForPromptMatch parseTs spawnTime promptHash
          (logs.drop (spawn.parentIdx + 1)) (spawn.parentIdx + 1) with
      | .error err => .error err
      | .ok (some best) =>
        .ok [{ type := "subagent_spawn", source := spawn.parentIdx,
               target := best.1, subagentType := some spawn.subagentType,
               taskToolId := spawn.taskToolId, spawnTime := spawn.timestamp,
               timeDiffSeconds := some best.2,
               matchMethod := some "prompt_hash", confidence := mkRat 95 100 }]
      | .ok none => .ok []

def detectSubagentSpawnsAux (parseTs : String → Option Int)
    (logs : List LogEntry) : List TaskSpawn → Except String (List GEdge)
  | [] => .ok []
  | spawn :: rest =>
    match spawnEdgeForTaskSpawn parseTs logs spawn with
    | .error err => .error err
    | .ok here =>
      match detectSubagentSpawnsAux parseTs logs rest with
      | .error err => .error err
      | .ok more => .ok (here ++ more)

/-- `detect_subagent_spawns` (workflow_graph.py lines 164-279), with
uncaught timestamp-parse exceptions modelled as `Except.error`. -/
def detectSubagentSpawns (parseTs : String → Option Int)
    (logs : List LogEntry) : Except String (List GEdge) :=
  detectSubagentSpawnsAux parseTs logs (collectTaskSpawnsAux logs 0)

structure GNode where
  id : Nat
  logIndex : Nat
  sessionId : Nat
  sessionLocalIndex : Nat
  timestamp : Option String
  agentType : String
  agentLabel : String
  agentColor : String
  model : String
  durationMs : Option Int
  tokensInput : Nat
  tokensOutput : Nat
  tokensTotal : Nat
  stopReason : Option String
  hasErrors : Bool
  toolCount : Nat
  subagentCount : Nat
deriving Repr, DecidableEq

structure SessionInfo where
  sessionId : Nat
  nodeStart : Nat
  nodeEnd : Int
  nodeCount : Nat
  edgeCount : Nat
  startTime : Option String
  endTime : Option String
deriving Repr, DecidableEq

structure GraphMetrics where
  totalNodes : Nat
  totalEdges : Nat
  sessionCount : Nat
deriving Repr, DecidableEq

structure Graph where
  nodes : List GNode
  edges : List GEdge
  sessions : List SessionInfo
  metrics : GraphMetrics
deriving Repr, DecidableEq

/-- One graph node (workflow_graph.py lines 464-493). -/
def mkNode (globalIdx sessionIdx localIdx : Nat) (log : LogEntry) : GNode :=
  { id := globalIdx, logIndex := globalIdx, sessionId := sessionIdx,
    sessionLocalIndex := localIdx, timestamp := log.timestamp,
    agentType := log.agentTypeName.getD "unknown",
    agentLabel := log.agentTypeLabel.getD "Unknown",
    agentColor := log.agentTypeColor.getD "#6b7280",
    model := log.model.getD "unknown",
    durationMs := log.durationMs,
    tokensInput := log.inputTokens.getD 0,
    tokensOutput := log.outputTokens.getD 0,
    tokensTotal := log.inputTokens.getD 0 + log.outputTokens.getD 0,
    stopReason := log.stopReason, hasErrors := log.hasErrors,
    toolCount := log.toolCount.getD 0,
    subagentCount := log.subagentCount.getD 0 }

/-- Nodes of one session, appended at global offset `start`. -/
def mkSessionNodes (sessionIdx start : Nat) : Nat → List LogEntry → List GNode
  | _, [] => []
  | localIdx, log :: rest =>
    mkNode (start + localIdx) sessionIdx localIdx log ::
      mkSessionNodes sessionIdx start (localIdx + 1) rest

/-- The per-session log slice of `build_workflow_graph` (workflow_graph.py
lines 445-453): the inclusive `[sessionStart, sessionEnd]` range, keeping
only the last `maxLogsPerSession` entries when over the cap. -/
def sessionSlice (sortedLogs : List LogEntry)
    (maxLogsPerSession sessionStart sessionEnd : Nat) : List LogEntry :=
  let sessionLogs0 :=
    (sortedLogs.drop sessionStart).take (sessionEnd + 1 - sessionStart)
  if sessionLogs0.length > maxLogsPerSession then
    sessionLogs0.drop (sessionLogs0.length - maxLogsPerSession)
  else sessionLogs0

/-- The per-session loop of `build_workflow_graph` (workflow_graph.py
lines 443-512): cap the session, run the three detectors, build nodes,
translate local edge indices to global ones and tag the session id. -/
def bwgSessions (parseTs : String → Option Int) (maxLogsPerSession : Nat)
    (sortedLogs : List LogEntry) :
    List (Nat × Nat) → Nat → List GNode → List GEdge → List SessionInfo →
      Except String (List GNode × List GEdge × List SessionInfo)
  | [], _, nodes, edges, sinfo => .ok (nodes, edges, sinfo)
  | (sessionStart, sessionEnd) :: rest, sessionIdx, nodes, edges, sinfo =>
    let sessionLogs :=
      sessionSlice sortedLogs maxLogsPerSession sessionStart sessionEnd
    let sessionNodeStart := nodes.length
    let toolIndexPair := buildToolIndex sessionLogs (some sessionIdx)
    let toolEdges := matchToolResults sessionLogs toolIndexPair.1
      toolIndexPair.2 (some sessionIdx)
    match detectSubagentSpawns parseTs sessionLogs with
    | .error err => .error err
    | .ok spawnEdges =>
      let contentEdges := detectContentReuse sessionLogs
      let newNodes := mkSessionNodes sessionIdx sessionNodeStart 0 sessionLogs
      let adjusted := (toolEdges ++ spawnEdges ++ contentEdges).map (fun e =>
        { e with source := sessionNodeStart + e.source,
                 target := sessionNodeStart + e.target,
                 sessionId := some sessionIdx })
      let sessionEntry : SessionInfo := {
        sessionId := sessionIdx, nodeStart := sessionNodeStart,
        nodeEnd := (nodes.length + newNodes.length : Int) - 1,
        nodeCount := sessionLogs.length,
        edgeCount := toolEdges.length + spawnEdges.length + contentEdges.length,
        startTime := match sessionLogs with
          | l :: _ => l.timestamp
          | [] => none,
        endTime := match sessionLogs.getLast? with
          | some l => l.timestamp
          | none => none }
      bwgSessions parseTs maxLogsPerSession sortedLogs rest (sessionIdx + 1)
        (nodes ++ newNodes) (edges ++ adjusted) (sinfo ++ [sessionEntry])

/-- Lexicographic string comparison on code points, the order Python uses
for `str` keys in `sorted`. -/
def strLeAux : List Char → List Char → Bool
  | [], _ => true
  | _ :: _, [] => false
  | a :: as, b :: bs =>
    if a.val < b.val then true
    else if b.val < a.val then false
    else strLeAux as bs

def strLe (a b : String) : Bool := strLeAux a.data b.data

/-- Stable insertion into an already-sorted list: `x` goes after every
element `y` with `le y x`, so equal keys keep their original order. -/
def insertStable (le : LogEntry → LogEntry → Bool) (x : LogEntry) :
    List LogEntry → List LogEntry
  | [] => [x]
  | y :: ys => if le y x then y :: insertStable le x ys else x :: y :: ys

/-- `sorted(logs, key=lambda x: x.get('timestamp', ''))`
(workflow_graph.py line 434): Python's `sorted` is stable, and a stable
sort by a fixed key is extensionally unique, so it is modelled by stable
insertion sort. -/
def sortLogs (logs : List LogEntry) : List LogEntry :=
  logs.foldl (fun acc x =>
    insertStable (fun a b => strLe (a.timestamp.getD "") (b.timestamp.getD ""))
      x acc) []

/-- `build_workflow_graph` (workflow_graph.py lines 410-528): sort
chronologically, split into sessions, run per-session detection, merge.
An exception escaping `detect_subagent_spawns` propagates out. -/
def buildWorkflowGraph (parseTs : String → Option Int)
    (logs : List LogEntry) (maxLogsPerSession : Nat := 1000)
    (sessionGapMinutes : Int := 10) : Except String Graph :=
  if logs = [] then
    .ok { nodes := [], edges := [], sessions := [],
          metrics := { totalNodes := 0, totalEdges := 0,
                       sessionCount := 0 } }
  else
    let sortedLogs := sortLogs logs
    let sessions := detectSessions parseTs sortedLogs sessionGapMinutes
    match bwgSessions parseTs maxLogsPerSession sortedLogs
        sessions 0 [] [] [] with
    | .error err => .error err
    | .ok merged =>
      .ok { nodes := merged.1, edges := merged.2.1, sessions := merged.2.2,
            metrics := { totalNodes := merged.1.length,
                         totalEdges := merged.2.1.length,
                         sessionCount := sessions.length } }

/-! ### Claim C9 — graceful degradation of subagent-spawn detection
(code bug: uncaught timestamp parse) -/

/-- A log entry holding a `Task` tool use with a `subagent_type` but an
unparseable timestamp. -/
def badTsLog : LogEntry :=
  { timestamp := some "not-a-timestamp",
    responseContent := some [.toolUse (some "task_1") (some "Task")
      { prompt := "investigate", subagentType := "researcher" }] }

/-- C9: evaluation at the failing input.  `detect_subagent_spawns` parses
the spawn timestamp at line 213 outside any try/except, so a log carrying
a `Task` tool use with an unparseable timestamp makes the function raise
`ValueError` instead of degrading gracefully (emitting no edge), contrary
to the claim that it never raises. -/
theorem C9_detect_subagent_spawns_raises :
    detectSubagentSpawns (fun _ => none) [badTsLog] =
      Except.error "ValueError" := rfl

/-! ### Claim C4 — content_reuse edge properties (corrected) -/

def reuseDemoLog0 : LogEntry :=
  { timestamp := some "t1", responseContent := some [.text "hello"] }

def reuseDemoLog1 : LogEntry :=
  { timestamp := some "t2",
    messages := some [{ role := "user", content := .str "hello" }] }

set_option maxRecDepth 8000 in
/-- C4 counterexample: the graph-level `detect_content_reuse` emits a
`content_reuse` edge with confidence 0.95, not 0.85 (and without any
different-agent requirement — it has no notion of agents at all), so
"every content_reuse edge the system emits … carries confidence 0.85"
fails on this two-log input. -/
theorem C4_counterexample :
    (detectContentReuse [reuseDemoLog0, reuseDemoLog1]).map
      (fun e => (e.type, e.source, e.target, e.confidence)) =
      [("content_reuse", 0, 1, mkRat 95 100)] ∧
    mkRat 95 100 ≠ mkRat 85 100 := by
  decide

theorem contentReuseEdgesForText_spec
    (rh : List (String × List (Nat × String))) (tidx : Nat) (text : String)
    (e : GEdge) (h : e ∈ contentReuseEdgesForText rh tidx text) :
    e.type = "content_reuse" ∧ e.confidence = mkRat 95 100 ∧
      e.source < e.target := by
  simp only [contentReuseEdgesForText] at h
  cases hl : alookup rh (hashContent text 200) with
  | none => rw [hl] at h; cases h
  | some sources =>
    rw [hl] at h
    rw [List.mem_filterMap] at h
    obtain ⟨src, _, hmk⟩ := h
    by_cases hcond : src.1 < tidx
    · rw [if_pos hcond] at hmk
      injection hmk with hmk
      subst hmk
      exact ⟨rfl, rfl, hcond⟩
    · rw [if_neg hcond] at hmk
      cases hmk

theorem contentReuseEdgesForLog_spec
    (rh : List (String × List (Nat × String))) (tidx : Nat) (log : LogEntry)
    (e : GEdge) (h : e ∈ contentReuseEdgesForLog rh tidx log) :
    e.type = "content_reuse" ∧ e.confidence = mkRat 95 100 ∧
      e.source < e.target := by
  unfold contentReuseEdgesForLog at h
  cases hm : log.messages with
  | none => rw [hm] at h; cases h
  | some messages =>
    rw [hm] at h
    dsimp only at h
    rw [List.mem_flatMap] at h
    obtain ⟨m, _, hmem⟩ := h
    cases hc : m.content with
    | str s =>
      rw [hc] at hmem
      exact contentReuseEdgesForText_spec rh tidx s e hmem
    | blocks bs =>
      rw [hc] at hmem
      dsimp only at hmem
      rw [List.mem_flatMap] at hmem
      obtain ⟨b, _, hb⟩ := hmem
      cases b with
      | text t =>
        dsimp only at hb
        by_cases ht : t ≠ ""
        · rw [if_pos ht] at hb
          exact contentReuseEdgesForText_spec rh tidx t e hb
        · rw [if_neg ht] at hb
          cases hb
      | toolUse a c d => dsimp only at hb; cases hb
      | toolResult a c d => dsimp only at hb; cases hb
      | other => dsimp only at hb; cases hb
    | otherVal => rw [hc] at hmem; cases hmem

theorem detectContentReuseAux_spec
    (rh : List (String × List (Nat × String))) :
    ∀ (logs : List LogEntry) (idx : Nat) (e : GEdge),
      e ∈ detectContentReuseAux rh logs idx →
      e.type = "content_reuse" ∧ e.confidence = mkRat 95 100 ∧
        e.source < e.target := by
  intro logs
  induction logs with
  | nil => intro idx e h; cases h
  | cons log rest ih =>
    intro idx e h
    unfold detectContentReuseAux at h
    rw [List.mem_append] at h
    rcases h with h | h
    · exact contentReuseEdgesForLog_spec rh idx log e h
    · exact ih (idx + 1) e h

theorem contentReuseEdges_spec (tr : Tracker) (rid : Nat) (aid : String)
    (text : String) (e : WorkflowEdge)
    (h : e ∈ contentReuseEdges tr rid aid text) :
    e.type = "content_reuse" ∧ e.confidence = mkRat 85 100 ∧
      e.sourceAgentId ≠ e.targetAgentId ∧
      ∃ s, e.sourceRequestId = some s ∧ e.targetRequestId = some rid ∧
        s < rid := by
  simp only [contentReuseEdges] at h
  cases hl : alookup tr.responseContentIndex
      (computeHash ((normWs text).take 200)) with
  | none => rw [hl] at h; cases h
  | some sources =>
    rw [hl] at h
    rw [List.mem_filterMap] at h
    obtain ⟨src, _, hmk⟩ := h
    by_cases hcond : src.requestId < rid ∧ src.agentId ≠ aid
    · rw [if_pos hcond] at hmk
      injection hmk with hmk
      subst hmk
      exact ⟨rfl, rfl, hcond.2, src.requestId, rfl, rfl, hcond.1⟩
    · rw [if_neg hcond] at hmk
      cases hmk

theorem messageReuseEdges_spec (tr : Tracker) (rid : Nat) (aid : String)
    (m : Message) (e : WorkflowEdge) (h : e ∈ messageReuseEdges tr rid aid m) :
    e.type = "content_reuse" ∧ e.confidence = mkRat 85 100 ∧
      e.sourceAgentId ≠ e.targetAgentId ∧
      ∃ s, e.sourceRequestId = some s ∧ e.targetRequestId = some rid ∧
        s < rid := by
  unfold messageReuseEdges at h
  by_cases hrole : m.role ≠ "user"
  · rw [if_pos hrole] at h; cases h
  · rw [if_neg hrole] at h
    cases hc : m.content with
    | str s =>
      rw [hc] at h
      exact contentReuseEdges_spec tr rid aid s e h
    | blocks bs =>
      rw [hc] at h
      dsimp only at h
      rw [List.mem_flatMap] at h
      obtain ⟨t, _, ht⟩ := h
      exact contentReuseEdges_spec tr rid aid t e ht
    | otherVal => rw [hc] at h; cases h

/-- C4 (amended): every `content_reuse` edge is causally ordered — its
source request index is strictly less than its target index.  The edges
emitted by the tracker (`track_request_content`) additionally connect two
different agents and carry confidence 0.85; the edges emitted by the
graph-level `detect_content_reuse` carry confidence 0.95 and have no
different-agent requirement. -/
theorem C4_content_reuse_properties :
    (∀ (tr : Tracker) (rid : Nat) (msgs : List Message) (ts : String)
      (e : WorkflowEdge),
      e ∈ (trackRequestContent tr rid msgs ts).workflowEdges →
      e ∈ tr.workflowEdges ∨
        (e.type = "content_reuse" ∧ e.confidence = mkRat 85 100 ∧
         e.sourceAgentId ≠ e.targetAgentId ∧
         ∃ s, e.sourceRequestId = some s ∧ e.targetRequestId = some rid ∧
           s < rid)) ∧
    (∀ (logs : List LogEntry) (e : GEdge), e ∈ detectContentReuse logs →
      e.type = "content_reuse" ∧ e.confidence = mkRat 95 100 ∧
        e.source < e.target) := by
  constructor
  · intro tr rid msgs ts e h
    unfold trackRequestContent at h
    cases ha : alookup tr.requestToAgent rid with
    | none =>
      rw [ha] at h
      left
      exact h
    | some aid =>
      rw [ha] at h
      dsimp only at h
      rw [List.mem_append] at h
      rcases h with h | h
      · left; exact h
      · right
        rw [List.mem_flatMap] at h
        obtain ⟨m, _, hm⟩ := h
        exact messageReuseEdges_spec tr rid aid m e hm
  · intro logs e h
    unfold detectContentReuse at h
    exact detectContentReuseAux_spec _ logs 0 e h

/-- A matching request/response pair across two agents: the tracker's
`content_reuse` edge for it. -/
def reuseDemoTracker : Tracker :=
  trackResponseContent
    (runTracker ecNone
      [reqOfMessages [userMsg "hello"], reqOfMessages [userMsg "who"]]).1
    0 [.text "hello"] ""

def reuseDemoEdge : WorkflowEdge :=
  { type := "content_reuse", sourceAgentId := "agent_0",
    targetAgentId := "agent_1", sourceRequestId := some 0,
    targetRequestId := some 1, contentHash := some "hello",
    confidence := mkRat 85 100 }

def reuseDemoGEdge : GEdge :=
  { type := "content_reuse", source := 0, target := 1,
    contentPreview := some "hello", matchMethod := some "hash_200char",
    confidence := mkRat 95 100 }

set_option maxRecDepth 8000 in
/-- C4 witness: both parts of the amended statement applied at concrete
edges actually produced by the two detectors. -/
theorem C4_content_reuse_properties_witness :
    (reuseDemoEdge ∈
      (trackRequestContent reuseDemoTracker 1 [userMsg "hello"]
        "").workflowEdges) ∧
    (reuseDemoEdge ∈ reuseDemoTracker.workflowEdges ∨
      (reuseDemoEdge.type = "content_reuse" ∧
       reuseDemoEdge.confidence = mkRat 85 100 ∧
       reuseDemoEdge.sourceAgentId ≠ reuseDemoEdge.targetAgentId ∧
       ∃ s, reuseDemoEdge.sourceRequestId = some s ∧
         reuseDemoEdge.targetRequestId = some 1 ∧ s < 1)) ∧
    (reuseDemoGEdge ∈ detectContentReuse [reuseDemoLog0, reuseDemoLog1]) ∧
    (reuseDemoGEdge.type = "content_reuse" ∧
     reuseDemoGEdge.confidence = mkRat 95 100 ∧
     reuseDemoGEdge.source < reuseDemoGEdge.target) :=
  ⟨by decide,
   C4_content_reuse_properties.1 reuseDemoTracker 1 [userMsg "hello"] ""
     reuseDemoEdge (by decide),
   by decide,
   C4_content_reuse_properties.2 [reuseDemoLog0, reuseDemoLog1]
     reuseDemoGEdge (by decide)⟩

/-! ### Claim C5 — session isolation of `build_workflow_graph` -/

theorem gelem_append_left {α : Type} :
    ∀ (l l2 : List α) (i : Nat) (x : α),
      l[i]? = some x → (l ++ l2)[i]? = some x := by
  intro l
  induction l with
  | nil => intro l2 i x h; simp at h
  | cons a t ih =>
    intro l2 i x h
    cases i with
    | zero => simpa using h
    | succ n =>
      rw [List.cons_append, List.getElem?_cons_succ]
      rw [List.getElem?_cons_succ] at h
      exact ih l2 n x h

theorem gelem_append_offset {α : Type} :
    ∀ (l l2 : List α) (i : Nat), (l ++ l2)[l.length + i]? = l2[i]? := by
  intro l
  induction l with
  | nil => intro l2 i; simp
  | cons a t ih =>
    intro l2 i
    rw [List.cons_append, List.length_cons,
      show t.length + 1 + i = (t.length + i) + 1 from by omega,
      List.getElem?_cons_succ]
    exact ih l2 i

/-- Every index below the session length resolves to a node of that
session in `mkSessionNodes`. -/
theorem mkSessionNodes_get (k start : Nat) :
    ∀ (logs : List LogEntry) (l0 j : Nat), j < logs.length →
      ∃ node, (mkSessionNodes k start l0 logs)[j]? = some node ∧
        node.sessionId = k := by
  intro logs
  induction logs with
  | nil => intro l0 j h; simp at h
  | cons log rest ih =>
    intro l0 j h
    cases j with
    | zero =>
      refine ⟨mkNode (start + l0) k l0 log, ?_, rfl⟩
      rw [mkSessionNodes, List.getElem?_cons_zero]
    | succ n =>
      have hn : n < rest.length := by
        rw [List.length_cons] at h; omega
      obtain ⟨node, h1, h2⟩ := ih (l0 + 1) n hn
      refine ⟨node, ?_, h2⟩
      rw [mkSessionNodes, List.getElem?_cons_succ]
      exact h1

/-- `build_tool_index` step: all recorded indices stay below a bound that
the current index respects. -/
theorem toolIndexStep_bound {sid : Option Nat} {idx bound : Nat}
    {acc : List (String × Nat) × List (String × Option String)}
    (hacc : ∀ p ∈ acc.1, p.2 < bound) (hidx : idx < bound) (b : Block) :
    ∀ p ∈ (toolIndexStep sid idx acc b).1, p.2 < bound := by
  intro p hp
  cases b with
  | toolUse otuid name input =>
    cases otuid with
    | none => exact hacc p hp
    | some tuid =>
      simp only [toolIndexStep] at hp
      by_cases ht : tuid ≠ ""
      · rw [if_pos ht] at hp
        dsimp only at hp
        rcases mem_aset _ _ _ _ hp with h | h
        · rw [h]; exact hidx
        · exact hacc p h
      · rw [if_neg ht] at hp
        exact hacc p hp
  | text t => exact hacc p hp
  | toolResult a c d => exact hacc p hp
  | other => exact hacc p hp

theorem toolIndexFold_bound {sid : Option Nat} {idx bound : Nat}
    (hidx : idx < bound) :
    ∀ (content : List Block)
      (acc : List (String × Nat) × List (String × Option String)),
      (∀ p ∈ acc.1, p.2 < bound) →
      ∀ p ∈ (content.foldl (toolIndexStep sid idx) acc).1, p.2 < bound := by
  intro content
  induction content with
  | nil => intro acc hacc; exact hacc
  | cons b rest ih =>
    intro acc hacc
    rw [List.foldl_cons]
    exact ih _ (toolIndexStep_bound hacc hidx b)

theorem buildToolIndexAux_bound {sid : Option Nat} :
    ∀ (logs : List LogEntry) (idx : Nat)
      (acc : List (String × Nat) × List (String × Option String)),
      (∀ p ∈ acc.1, p.2 < idx) →
      ∀ p ∈ (buildToolIndexAux sid logs idx acc).1,
        p.2 < idx + logs.length := by
  intro logs
  induction logs with
  | nil =>
    intro idx acc hacc p hp
    simp only [buildToolIndexAux] at hp
    rw [List.length_nil, Nat.add_zero]
    exact hacc p hp
  | cons log rest ih =>
    intro idx acc hacc p hp
    simp only [buildToolIndexAux] at hp
    cases hrc : log.responseContent with
    | none =>
      rw [hrc] at hp
      dsimp only at hp
      have h2 := ih (idx + 1) acc
        (fun r hr => Nat.lt_succ_of_lt (hacc r hr)) p hp
      rw [List.length_cons]
      omega
    | some content =>
      rw [hrc] at hp
      dsimp only at hp
      have h2 := ih (idx + 1) _
        (toolIndexFold_bound (Nat.lt_succ_self idx) content acc
          (fun r hr => Nat.lt_succ_of_lt (hacc r hr))) p hp
      rw [List.length_cons]
      omega

/-- Every log index recorded by `build_tool_index` is a valid index into
the indexed log list. -/
theorem buildToolIndex_bound {logs : List LogEntry} {sid : Option Nat} :
    ∀ p ∈ (buildToolIndex logs sid).1, p.2 < logs.length := by
  intro p hp
  have := buildToolIndexAux_bound logs 0 ([], [])
    (fun q hq => absurd hq (List.not_mem_nil q)) p hp
  simpa using this

theorem toolResultEdgesForLog_endpoints {ti : List (String × Nat)}
    {tn : List (String × Option String)} {sid : Option Nat} {tidx : Nat}
    {log : LogEntry} {e : GEdge}
    (h : e ∈ toolResultEdgesForLog ti tn sid tidx log) :
    e.target = tidx ∧ ∃ k, alookup ti k = some e.source := by
  unfold toolResultEdgesForLog at h
  cases hm : log.messages with
  | none => rw [hm] at h; cases h
  | some messages =>
    rw [hm] at h
    dsimp only at h
    rw [List.mem_flatMap] at h
    obtain ⟨msg, hmm, hmsg⟩ := h
    cases hc : msg.content with
    | str s => rw [hc] at hmsg; cases hmsg
    | otherVal => rw [hc] at hmsg; cases hmsg
    | blocks content =>
      rw [hc] at hmsg
      dsimp only at hmsg
      rw [List.mem_filterMap] at hmsg
      obtain ⟨b, hbm, hb⟩ := hmsg
      cases b with
      | text t => dsimp only at hb; cases hb
      | toolUse a c d => dsimp only at hb; cases hb
      | other => dsimp only at hb; cases hb
      | toolResult otuid cnt isErr =>
        cases otuid with
        | none => dsimp only at hb; cases hb
        | some tuid =>
          dsimp only at hb
          by_cases ht : tuid ≠ ""
          · rw [if_pos ht] at hb
            cases hl : alookup ti (sessionPrefix sid tuid) with
            | none => rw [hl] at hb; cases hb
            | some sourceIdx =>
              rw [hl] at hb
              dsimp only at hb
              injection hb with hb
              subst hb
              exact ⟨rfl, sessionPrefix sid tuid, hl⟩
          · rw [if_neg ht] at hb
            cases hb

theorem matchToolResultsAux_endpoints {ti : List (String × Nat)}
    {tn : List (String × Option String)} {sid : Option Nat} :
    ∀ (logs : List LogEntry) (idx : Nat) (e : GEdge),
      e ∈ matchToolResultsAux ti tn sid logs idx →
      e.target < idx + logs.length ∧ ∃ k, alookup ti k = some e.source := by
  intro logs
  induction logs with
  | nil => intro idx e h; cases h
  | cons log rest ih =>
    intro idx e h
    simp only [matchToolResultsAux] at h
    rw [List.mem_append] at h
    rcases h with h | h
    · obtain ⟨h1, h2⟩ := toolResultEdgesForLog_endpoints h
      refine ⟨?_, h2⟩
      rw [h1, List.length_cons]
      omega
    · obtain ⟨h1, h2⟩ := ih (idx + 1) e h
      refine ⟨?_, h2⟩
      rw [List.length_cons]
      omega

/-- `match_tool_results` run on the index built from the same logs only
produces edges whose endpoints are valid indices into those logs. -/
theorem toolEdges_bound {logs : List LogEntry} {sid : Option Nat} {e : GEdge}
    (h : e ∈ matchToolResults logs (buildToolIndex logs sid).1
      (buildToolIndex logs sid).2 sid) :
    e.source < logs.length ∧ e.target < logs.length := by
  unfold matchToolResults at h
  obtain ⟨h1, k, h2⟩ := matchToolResultsAux_endpoints logs 0 e h
  refine ⟨?_, by simpa using h1⟩
  exact buildToolIndex_bound (k, e.source) (alookup_mem _ k e.source h2)

/-- One step of the response-hash index keeps all recorded log indices
below the next index. -/
theorem rhStep_bound {acc : List (String × List (Nat × String))} {idx : Nat}
    (hacc : ∀ p ∈ acc, ∀ q ∈ p.2, q.1 < idx) (text : String) :
    ∀ p ∈ (if text ≠ "" then
        (if hashContent text 200 ≠ "" then
          aset acc (hashContent text 200)
            ((alookup acc (hashContent text 200)).getD [] ++
              [(idx, replaceNewlines (text.take 100))])
        else acc)
      else acc), ∀ q ∈ p.2, q.1 < idx + 1 := by
  intro p hp q hq
  by_cases h1 : text ≠ ""
  · rw [if_pos h1] at hp
    by_cases h2 : hashContent text 200 ≠ ""
    · rw [if_pos h2] at hp
      rcases mem_aset _ _ _ _ hp with h | h
      · subst h
        dsimp only at hq
        rw [List.mem_append] at hq
        rcases hq with hq | hq
        · cases hl : alookup acc (hashContent text 200) with
          | none => rw [hl] at hq; simp at hq
          | some old =>
            rw [hl] at hq
            rw [Option.getD_some] at hq
            exact Nat.lt_succ_of_lt (hacc _ (alookup_mem _ _ _ hl) q hq)
        · rw [List.mem_singleton] at hq
          rw [hq]
          exact Nat.lt_succ_self idx
      · exact Nat.lt_succ_of_lt (hacc p h q hq)
    · rw [if_neg h2] at hp
      exact Nat.lt_succ_of_lt (hacc p hp q hq)
  · rw [if_neg h1] at hp
    exact Nat.lt_succ_of_lt (hacc p hp q hq)

theorem responseHashesAux_bound :
    ∀ (logs : List LogEntry) (idx : Nat)
      (acc : List (String × List (Nat × String))),
      (∀ p ∈ acc, ∀ q ∈ p.2, q.1 < idx) →
      ∀ p ∈ responseHashesAux logs idx acc, ∀ q ∈ p.2,
        q.1 < idx + logs.length := by
  intro logs
  induction logs with
  | nil =>
    intro idx acc hacc p hp q hq
    simp only [responseHashesAux] at hp
    rw [List.length_nil, Nat.add_zero]
    exact hacc p hp q hq
  | cons log rest ih =>
    intro idx acc hacc p hp q hq
    simp only [responseHashesAux] at hp
    have h2 := ih (idx + 1) _ (rhStep_bound hacc (responseText log)) p hp q hq
    rw [List.length_cons]
    omega

/-- The sources of `content_reuse` edges for one hashed text are indices
recorded in the response-hash index; the target is the scanned index. -/
theorem contentReuseEdgesForText_endpoints {n : Nat}
    {rh : List (String × List (Nat × String))} {tidx : Nat} {text : String}
    {e : GEdge} (hrh : ∀ p ∈ rh, ∀ q ∈ p.2, q.1 < n)
    (h : e ∈ contentReuseEdgesForText rh tidx text) :
    e.source < n ∧ e.target = tidx := by
  simp only [contentReuseEdgesForText] at h
  cases hl : alookup rh (hashContent text 200) with
  | none => rw [hl] at h; cases h
  | some sources =>
    rw [hl] at h
    rw [List.mem_filterMap] at h
    obtain ⟨src, hsrc, hmk⟩ := h
    by_cases hcond : src.1 < tidx
    · rw [if_pos hcond] at hmk
      injection hmk with hmk
      subst hmk
      exact ⟨hrh _ (alookup_mem _ _ _ hl) src hsrc, rfl⟩
    · rw [if_neg hcond] at hmk
      cases hmk

theorem contentReuseEdgesForLog_endpoints {n : Nat}
    {rh : List (String × List (Nat × String))} {tidx : Nat} {log : LogEntry}
    {e : GEdge} (hrh : ∀ p ∈ rh, ∀ q ∈ p.2, q.1 < n)
    (h : e ∈ contentReuseEdgesForLog rh tidx log) :
    e.source < n ∧ e.target = tidx := by
  unfold contentReuseEdgesForLog at h
  cases hm : log.messages with
  | none => rw [hm] at h; cases h
  | some messages =>
    rw [hm] at h
    dsimp only at h
    rw [List.mem_flatMap] at h
    obtain ⟨m, hmm, hmem⟩ := h
    cases hc : m.content with
    | str s =>
      rw [hc] at hmem
      exact contentReuseEdgesForText_endpoints hrh hmem
    | blocks bs =>
      rw [hc] at hmem
      dsimp only at hmem
      rw [List.mem_flatMap] at hmem
      obtain ⟨b, hbm, hb⟩ := hmem
      cases b with
      | text t =>
        dsimp only at hb
        by_cases ht : t ≠ ""
        · rw [if_pos ht] at hb
          exact contentReuseEdgesForText_endpoints hrh hb
        · rw [if_neg ht] at hb
          cases hb
      | toolUse a c d => dsimp only at hb; cases hb
      | toolResult a c d => dsimp only at hb; cases hb
      | other => dsimp only at hb; cases hb
    | otherVal => rw [hc] at hmem; cases hmem

theorem detectContentReuseAux_endpoints {n : Nat}
    {rh : List (String × List (Nat × String))}
    (hrh : ∀ p ∈ rh, ∀ q ∈ p.2, q.1 < n) :
    ∀ (logs : List LogEntry) (idx : Nat) (e : GEdge),
      e ∈ detectContentReuseAux rh logs idx →
      e.source < n ∧ e.target < idx + logs.length := by
  intro logs
  induction logs with
  | nil => intro idx e h; cases h
  | cons log rest ih =>
    intro idx e h
    simp only [detectContentReuseAux] at h
    rw [List.mem_append] at h
    rcases h with h | h
    · obtain ⟨h1, h2⟩ := contentReuseEdgesForLog_endpoints hrh h
      refine ⟨h1, ?_⟩
      rw [h2, List.length_cons]
      omega
    · obtain ⟨h1, h2⟩ := ih (idx + 1) e h
      refine ⟨h1, ?_⟩
      rw [List.length_cons]
      omega

/-- `detect_content_reuse` only produces edges whose endpoints are valid
indices into the scanned log list. -/
theorem detectContentReuse_bound {logs : List LogEntry} {e : GEdge}
    (h : e ∈ detectContentReuse logs) :
    e.source < logs.length ∧ e.target < logs.length := by
  unfold detectContentReuse at h
  have hrh : ∀ p ∈ responseHashesAux logs 0 [], ∀ q ∈ p.2,
      q.1 < logs.length := by
    intro p hp q hq
    have := responseHashesAux_bound logs 0 []
      (fun r hr => absurd hr (List.not_mem_nil r)) p hp q hq
    simpa using this
  obtain ⟨h1, h2⟩ := detectContentReuseAux_endpoints hrh logs 0 e h
  exact ⟨h1, by simpa using h2⟩

theorem collectTaskSpawnsAux_bound :
    ∀ (logs : List LogEntry) (idx : Nat) (s : TaskSpawn),
      s ∈ collectTaskSpawnsAux logs idx →
      idx ≤ s.parentIdx ∧ s.parentIdx < idx + logs.length := by
  intro logs
  induction logs with
  | nil => intro idx s h; cases h
  | cons log rest ih =>
    intro idx s h
    simp only [collectTaskSpawnsAux] at h
    rw [List.mem_append] at h
    rcases h with h | h
    · have hs : s.parentIdx = idx := by
        cases hrc : log.responseContent with
        | none => rw [hrc] at h; cases h
        | some content =>
          rw [hrc] at h
          dsimp only at h
          rw [List.mem_filterMap] at h
          obtain ⟨b, hbm, hb⟩ := h
          cases b with
          | text t => dsimp only at hb; cases hb
          | toolResult a c d => dsimp only at hb; cases hb
          | other => dsimp only at hb; cases hb
          | toolUse tid name input =>
            dsimp only at hb
            by_cases h1 : name = some "Task"
            · rw [if_pos h1] at hb
              by_cases h2 : input.subagentType ≠ ""
              · rw [if_pos h2] at hb
                injection hb with hb
                subst hb
                rfl
              · rw [if_neg h2] at hb; cases hb
            · rw [if_neg h1] at hb; cases hb
      rw [hs, List.length_cons]
      omega
    · obtain ⟨h1, h2⟩ := ih (idx + 1) s h
      rw [List.length_cons]
      omega

/-- A successful forward scan returns an index inside the scanned
suffix. -/
theorem scanForPromptMatch_bound (parseTs : String → Option Int)
    (spawnTime : Int) (promptHash : String) :
    ∀ (logs : List LogEntry) (idx : Nat) (r : Nat × Int),
      scanForPromptMatch parseTs spawnTime promptHash logs idx =
        .ok (some r) →
      idx ≤ r.1 ∧ r.1 < idx + logs.length := by
  intro logs
  induction logs with
  | nil =>
    intro idx r h
    simp only [scanForPromptMatch] at h
    injection h with h
    exact Option.noConfusion h
  | cons log rest ih =>
    intro idx r h
    simp only [scanForPromptMatch] at h
    cases hpl : parseLogTime parseTs log.timestamp with
    | error err => rw [hpl] at h; exact Except.noConfusion h
    | ok t =>
      rw [hpl] at h
      dsimp only at h
      by_cases h36 : t - spawnTime > 3600
      · rw [if_pos h36] at h
        injection h with h
        exact Option.noConfusion h
      · rw [if_neg h36] at h
        cases hmh : firstMsgHash log with
        | none =>
          rw [hmh] at h
          dsimp only at h
          obtain ⟨h1, h2⟩ := ih (idx + 1) r h
          rw [List.length_cons]
          omega
        | some hh =>
          rw [hmh] at h
          dsimp only at h
          by_cases hcond : hh ≠ "" ∧ hh = promptHash
          · rw [if_pos hcond] at h
            by_cases hnn : (0 : Int) ≤ t - spawnTime
            · rw [if_pos hnn] at h
              injection h with h
              injection h with h
              subst h
              dsimp only
              rw [List.length_cons]
              omega
            · rw [if_neg hnn] at h
              obtain ⟨h1, h2⟩ := ih (idx + 1) r h
              rw [List.length_cons]
              omega
          · rw [if_neg hcond] at h
            obtain ⟨h1, h2⟩ := ih (idx + 1) r h
            rw [List.length_cons]
            omega

theorem spawnEdgeForTaskSpawn_bound {parseTs : String → Option Int}
    {logs : List LogEntry} {spawn : TaskSpawn} {es : List GEdge}
    (hp : spawn.parentIdx < logs.length)
    (h : spawnEdgeForTaskSpawn parseTs logs spawn = .ok es) :
    ∀ e ∈ es, e.source < logs.length ∧ e.target < logs.length := by
  unfold spawnEdgeForTaskSpawn at h
  cases hpl : parseLogTime parseTs spawn.timestamp with
  | error err => rw [hpl] at h; exact Except.noConfusion h
  | ok spawnTime =>
    rw [hpl] at h
    dsimp only at h
    cases hph : spawn.promptHash with
    | none =>
      rw [hph] at h
      dsimp only at h
      injection h with h
      subst h
      intro e he
      cases he
    | some promptHash =>
      rw [hph] at h
      dsimp only at h
      cases hscan : scanForPromptMatch parseTs spawnTime promptHash
          (logs.drop (spawn.parentIdx + 1)) (spawn.parentIdx + 1) with
      | error err => rw [hscan] at h; exact Except.noConfusion h
      | ok o =>
        rw [hscan] at h
        cases o with
        | none =>
          dsimp only at h
          injection h with h
          subst h
          intro e he
          cases he
        | some best =>
          dsimp only at h
          injection h with h
          subst h
          intro e he
          rw [List.mem_singleton] at he
          subst he
          refine ⟨hp, ?_⟩
          obtain ⟨h1, h2⟩ := scanForPromptMatch_bound parseTs spawnTime
            promptHash _ _ best hscan
          rw [List.length_drop] at h2
          show best.1 < logs.length
          omega

theorem detectSubagentSpawnsAux_bound {parseTs : String → Option Int}
    {logs : List LogEntry} :
    ∀ (spawns : List TaskSpawn),
      (∀ s ∈ spawns, s.parentIdx < logs.length) →
      ∀ (es : List GEdge),
        detectSubagentSpawnsAux parseTs logs spawns = .ok es →
        ∀ e ∈ es, e.source < logs.length ∧ e.target < logs.length := by
  intro spawns
  induction spawns with
  | nil =>
    intro hsp es h
    simp only [detectSubagentSpawnsAux] at h
    injection h with h
    subst h
    intro e he
    cases he
  | cons spawn rest ih =>
    intro hsp es h
    simp only [detectSubagentSpawnsAux] at h
    cases hse : spawnEdgeForTaskSpawn parseTs logs spawn with
    | error err => rw [hse] at h; exact Except.noConfusion h
    | ok here =>
      rw [hse] at h
      dsimp only at h
      cases hrec : detectSubagentSpawnsAux parseTs logs rest with
      | error err => rw [hrec] at h; exact Except.noConfusion h
      | ok more =>
        rw [hrec] at h
        dsimp only at h
        injection h with h
        subst h
        intro e he
        rw [List.mem_append] at he
        rcases he with he | he
        · exact spawnEdgeForTaskSpawn_bound
            (hsp spawn (List.mem_cons_self spawn rest)) hse e he
        · exact ih (fun s hs => hsp s (List.mem_cons_of_mem spawn hs))
            more hrec e he

/-- A successful `detect_subagent_spawns` only produces edges whose
endpoints are valid indices into the scanned log list. -/
theorem detectSubagentSpawns_bound {parseTs : String → Option Int}
    {logs : List LogEntry} {es : List GEdge}
    (h : detectSubagentSpawns parseTs logs = .ok es) :
    ∀ e ∈ es, e.source < logs.length ∧ e.target < logs.length := by
  unfold detectSubagentSpawns at h
  refine detectSubagentSpawnsAux_bound _ (fun s hs => ?_) es h
  have := (collectTaskSpawnsAux_bound logs 0 s hs).2
  omega

/-- Both endpoints of every edge resolve to nodes of the same session. -/
def EdgesOk (nodes : List GNode) (edges : List GEdge) : Prop :=
  ∀ e ∈ edges, ∃ ns nt, nodes[e.source]? = some ns ∧
    nodes[e.target]? = some nt ∧ ns.sessionId = nt.sessionId

/-- The per-session loop preserves `EdgesOk`: per-session edges are
offset into that session's freshly appended node block, so both endpoints
land on nodes tagged with the current session id. -/
theorem bwgSessions_ok (parseTs : String → Option Int) (maxN : Nat)
    (sortedLogs : List LogEntry) :
    ∀ (sess : List (Nat × Nat)) (k : Nat) (nodes : List GNode)
      (edges : List GEdge) (sinfo : List SessionInfo)
      (res : List GNode × List GEdge × List SessionInfo),
      EdgesOk nodes edges →
      bwgSessions parseTs maxN sortedLogs sess k nodes edges sinfo =
        .ok res →
      EdgesOk res.1 res.2.1 := by
  intro sess
  induction sess with
  | nil =>
    intro k nodes edges sinfo res hok h
    simp only [bwgSessions] at h
    injection h with h
    subst h
    exact hok
  | cons se rest ih =>
    obtain ⟨sessionStart, sessionEnd⟩ := se
    intro k nodes edges sinfo res hok h
    simp only [bwgSessions] at h
    cases hsp : detectSubagentSpawns parseTs
        (sessionSlice sortedLogs maxN sessionStart sessionEnd) with
    | error err => rw [hsp] at h; exact Except.noConfusion h
    | ok spawnEdges =>
      rw [hsp] at h
      dsimp only at h
      refine ih (k + 1) _ _ _ res ?_ h
      intro e he
      rw [List.mem_append] at he
      rcases he with he | he
      · obtain ⟨ns, nt, h1, h2, h3⟩ := hok e he
        exact ⟨ns, nt, gelem_append_left _ _ _ _ h1,
          gelem_append_left _ _ _ _ h2, h3⟩
      · rw [List.mem_map] at he
        obtain ⟨e0, he0, rfl⟩ := he
        have hb : e0.source <
            (sessionSlice sortedLogs maxN sessionStart sessionEnd).length ∧
            e0.target <
            (sessionSlice sortedLogs maxN sessionStart sessionEnd).length := by
          rw [List.mem_append] at he0
          rcases he0 with he0 | he0
          · rw [List.mem_append] at he0
            rcases he0 with he0 | he0
            · exact toolEdges_bound he0
            · exact detectSubagentSpawns_bound hsp e0 he0
          · exact detectContentReuse_bound he0
        obtain ⟨ns, hn1, hn2⟩ := mkSessionNodes_get k nodes.length _ 0
          e0.source hb.1
        obtain ⟨nt, hm1, hm2⟩ := mkSessionNodes_get k nodes.length _ 0
          e0.target hb.2
        refine ⟨ns, nt, ?_, ?_, hn2.trans hm2.symm⟩
        · show (nodes ++ mkSessionNodes k nodes.length 0
            (sessionSlice sortedLogs maxN sessionStart sessionEnd))[
              nodes.length + e0.source]? = some ns
          rw [gelem_append_offset]
          exact hn1
        · show (nodes ++ mkSessionNodes k nodes.length 0
            (sessionSlice sortedLogs maxN sessionStart sessionEnd))[
              nodes.length + e0.target]? = some nt
          rw [gelem_append_offset]
          exact hm1

/-- C5: In the graph returned by `build_workflow_graph`, every edge's
source and target resolve to nodes of the graph carrying the same
session id — no edge's endpoints span two different sessions, because
each detector only ever sees one session's log slice and its edges are
offset into that session's own node block. -/
theorem C5_session_isolation (parseTs : String → Option Int)
    (logs : List LogEntry) (maxN : Nat) (gapM : Int) (g : Graph)
    (h : buildWorkflowGraph parseTs logs maxN gapM = .ok g) :
    ∀ e ∈ g.edges, ∃ ns nt, g.nodes[e.source]? = some ns ∧
      g.nodes[e.target]? = some nt ∧ ns.sessionId = nt.sessionId := by
  by_cases hl : logs = []
  · simp only [buildWorkflowGraph, if_pos hl] at h
    injection h with h
    subst h
    intro e he
    cases he
  · simp only [buildWorkflowGraph, if_neg hl] at h
    cases hbwg : bwgSessions parseTs maxN (sortLogs logs)
        (detectSessions parseTs (sortLogs logs) gapM) 0 [] [] [] with
    | error err => rw [hbwg] at h; exact Except.noConfusion h
    | ok merged =>
      rw [hbwg] at h
      dsimp only at h
      injection h with h
      subst h
      have hall := bwgSessions_ok parseTs maxN (sortLogs logs) _ 0 [] [] []
        merged (fun e he => absurd he (List.not_mem_nil e)) hbwg
      intro e he
      exact hall e he

def sessionDemoLog0 : LogEntry :=
  { timestamp := some "t1",
    responseContent := some [.toolUse (some "x1") (some "Bash")
      { command := "ls" }] }

def sessionDemoMsg : Message :=
  { role := "user", content := .blocks [.toolResult (some "x1") "ok" false] }

def sessionDemoLog1 : LogEntry :=
  { timestamp := some "t2", messages := some [sessionDemoMsg] }

def demoParseTs : String → Option Int :=
  fun s => if s = "t1" then some 0 else if s = "t2" then some 1 else none

def sessionDemoNode0 : GNode :=
  { id := 0, logIndex := 0, sessionId := 0, sessionLocalIndex := 0,
    timestamp := some "t1", agentType := "unknown", agentLabel := "Unknown",
    agentColor := "#6b7280", model := "unknown", durationMs := none,
    tokensInput := 0, tokensOutput := 0, tokensTotal := 0,
    stopReason := none, hasErrors := false, toolCount := 0,
    subagentCount := 0 }

def sessionDemoNode1 : GNode :=
  { id := 1, logIndex := 1, sessionId := 0, sessionLocalIndex := 1,
    timestamp := some "t2", agentType := "unknown", agentLabel := "Unknown",
    agentColor := "#6b7280", model := "unknown", durationMs := none,
    tokensInput := 0, tokensOutput := 0, tokensTotal := 0,
    stopReason := none, hasErrors := false, toolCount := 0,
    subagentCount := 0 }

def sessionDemoEdge : GEdge :=
  { type := "tool_result", source := 0, target := 1, confidence := 1,
    sessionId := some 0, toolUseId := some "x1", toolName := some "Bash",
    isError := some false }

def sessionDemoInfo : SessionInfo :=
  { sessionId := 0, nodeStart := 0, nodeEnd := 1, nodeCount := 2,
    edgeCount := 1, startTime := some "t1", endTime := some "t2" }

def sessionDemoGraph : Graph :=
  { nodes := [sessionDemoNode0, sessionDemoNode1],
    edges := [sessionDemoEdge],
    sessions := [sessionDemoInfo],
    metrics := { totalNodes := 2, totalEdges := 1, sessionCount := 1 } }

set_option maxRecDepth 8000 in
/-- C5 witness: the session-isolation theorem applied to a concrete
two-log stream whose graph has one tool_result edge inside session 0. -/
theorem C5_session_isolation_witness :
    buildWorkflowGraph demoParseTs [sessionDemoLog0, sessionDemoLog1]
        1000 10 = .ok sessionDemoGraph ∧
    ∃ ns nt, sessionDemoGraph.nodes[sessionDemoEdge.source]? = some ns ∧
      sessionDemoGraph.nodes[sessionDemoEdge.target]? = some nt ∧
      ns.sessionId = nt.sessionId :=
  ⟨rfl, C5_session_isolation demoParseTs [sessionDemoLog0, sessionDemoLog1]
    1000 10 sessionDemoGraph rfl sessionDemoEdge (by decide)⟩

end ClaudeInspector
